import Mathlib

/-!
Verification of `src/clickup_to_bigquery/main.py` (class `ClickUpToBigQuery`).

The program is a single linear extract-transform-load routine.  We embed it
shallowly: parsed JSON payloads become the inductive `JVal`, Python dicts
become association lists, Python exceptions become `Except PyErr`, and the
observable side effects (HTTP requests, BigQuery table creation, load jobs,
waiting on a job, log lines) become an ordered event trace produced by the
writer-style monad `PyM`.  The HTTP layer is abstracted as a function
`Api : Endpoint → JVal` giving the parsed JSON body each endpoint returns.
-/

set_option autoImplicit false

namespace ClickUpSync

/-- A parsed JSON value (the result of `response.json()`), also used for the
values stored in task dictionaries.  Numbers are modelled as integers; no
claim depends on fractional values, which pass through the code opaquely. -/
inductive JVal where
  | null : JVal
  | bool : Bool → JVal
  | num : Int → JVal
  | str : String → JVal
  | arr : List JVal → JVal
  | obj : List (String × JVal) → JVal

/-- A Python dict with string keys, as an association list (the first binding
of a key is the current one; JSON parsing never yields duplicate keys). -/

abbrev Dict := List (String × JVal)

/-- Lookup in a dict: `d[k]` / `d.get(k)` on the underlying mapping. -/

def dictGet : Dict → String → Option JVal
  | [], _ => none
  | (k1, v) :: rest, k => if k1 = k then some v else dictGet rest k

/-- Python dict assignment `d[k] = v`: replaces the binding in place if the
key exists, otherwise appends a new binding. -/

def dictSet : Dict → String → JVal → Dict
  | [], k, v => [(k, v)]
  | (k1, v1) :: rest, k, v =>
      if k1 = k then (k, v) :: rest else (k1, v1) :: dictSet rest k v

/-- The Python exceptions the embedded code can raise. -/

inductive PyErr where
  | keyError : String → PyErr
  | typeError : PyErr
  | attributeError : PyErr
deriving DecidableEq, Repr

/-- `str(e)` for an exception, used in the error log line.  The exact text of
Python's rendering is approximated; only its dependence on the exception
matters to the claims. -/

def PyErr.msg : PyErr → String
  | .keyError k => "\x27" ++ k ++ "\x27"
  | .typeError => "TypeError"
  | .attributeError => "AttributeError"

/-- `v[k]` on a JSON value: key lookup on a dict (KeyError when absent),
TypeError on anything else. -/

def pySubscr (v : JVal) (k : String) : Except PyErr JVal :=
  match v with
  | .obj d =>
      match dictGet d k with
      | some x => Except.ok x
      | none => Except.error (PyErr.keyError k)
  | _ => Except.error PyErr.typeError

/-- `v.get(k, dflt)` on a JSON value: only dicts have `.get`, anything else
raises AttributeError. -/

def pyGetD (v : JVal) (k : String) (dflt : JVal) : Except PyErr JVal :=
  match v with
  | .obj d => Except.ok ((dictGet d k).getD dflt)
  | _ => Except.error PyErr.attributeError

/-- `for x in v`: lists yield their elements, strings their characters,
dicts their keys; other values are not iterable. -/

def pyIter (v : JVal) : Except PyErr (List JVal) :=
  match v with
  | .arr xs => Except.ok xs
  | .str s => Except.ok (s.toList.map fun c => JVal.str c.toString)
  | .obj d => Except.ok (d.map fun kv => JVal.str kv.1)
  | _ => Except.error PyErr.typeError

/-- `v == lit` for a string literal `lit`, as in `field['type'] == 'number'`:
in Python only a string compares equal to a string literal. -/

def pyEqStr (v : JVal) (lit : String) : Bool :=
  match v with
  | .str s => s = lit
  | _ => false

/-- `str(v)` as used in f-strings when building URLs and column names.
Faithful on the scalar values; the rendering of container values (never
identifier-shaped in the source data model, where every `id` is a string)
is abbreviated rather than recursively rendered. -/

def pyStr : JVal → String
  | .null => "None"
  | .bool b => if b then "True" else "False"
  | .num n => toString n
  | .str s => s
  | .arr _ => "[...]"
  | .obj _ => "\x7b...\x7d"

/-- The REST endpoints the program requests, with the identifier interpolated
into each URL. -/

inductive Endpoint where
  | customFields : String → Endpoint
  | customTaskTypes : String → Endpoint
  | spaces : String → Endpoint
  | lists : String → Endpoint
  | tasks : String → Endpoint
deriving DecidableEq, Repr

/-- The source API, abstracted as the parsed JSON body returned per endpoint. -/

def Api : Type := Endpoint → JVal

/-- `job_config.write_disposition` values of the BigQuery client. -/

inductive WriteDisposition where
  | WRITE_TRUNCATE : WriteDisposition
  | WRITE_APPEND : WriteDisposition
  | WRITE_EMPTY : WriteDisposition
deriving DecidableEq, Repr

/-- The column descriptor `bigquery.SchemaField(name, type)`. -/

structure SchemaField where
  name : String
  colType : String
deriving DecidableEq, Repr

/-- An observable side effect of a run, in order of occurrence. -/

inductive Event where
  | apiCall : Endpoint → Event
  | createTable : List SchemaField → Event
  | loadJob : List Dict → WriteDisposition → Event
  | jobResult : Event
  | logInfo : String → Event
  | logError : String → Event

/-- The effect monad of the embedding: a result (or propagating exception)
together with the ordered trace of side effects performed before returning
or raising. -/

structure PyM (α : Type) : Type where
  res : Except PyErr α
  events : List Event

instance : Monad PyM where
  pure a := ⟨Except.ok a, []⟩
  bind m f :=
    match m.res with
    | Except.ok a => ⟨(f a).res, m.events ++ (f a).events⟩
    | Except.error e => ⟨Except.error e, m.events⟩

/-- Run a pure fallible step (no side effect). -/

def liftE {α : Type} (e : Except PyErr α) : PyM α := ⟨e, []⟩

/-- Record one event. -/

def tell (ev : Event) : PyM Unit := ⟨Except.ok (), [ev]⟩

/-- `requests.get(url).json()`: records the API call and returns the parsed
body the source API serves for that endpoint. -/

def httpGet (api : Api) (ep : Endpoint) : PyM JVal := ⟨Except.ok (api ep), [Event.apiCall ep]⟩

/-- `logger.info(s)`. -/

def logInfoM (s : String) : PyM Unit := tell (Event.logInfo s)

def fetch_custom_fields (api : Api) (workspace_id : String) : PyM JVal := do
  let response ← httpGet api (Endpoint.customFields workspace_id)
  liftE (pyGetD response "custom_fields" (JVal.arr []))

/-- `fetch_custom_task_types` (main.py lines 29-33).  Defined, but — like in
the source — never called by `sync_data`. -/

def fetch_custom_task_types (api : Api) (workspace_id : String) : PyM JVal := do
  let response ← httpGet api (Endpoint.customTaskTypes workspace_id)
  liftE (pyGetD response "custom_task_types" (JVal.arr []))

/-- The inner custom-field loop of `fetch_tasks` (main.py lines 57-58):
`for field in custom_fields: task[f"custom_field_{field['id']}"] = field.get('value')`.
Python evaluates the right-hand side (`field.get('value')`) before the
subscript key of the assignment target. -/

def flattenFields (task : Dict) : List JVal → Except PyErr Dict
  | [] => Except.ok task
  | field :: rest => do
      let v ← pyGetD field "value" JVal.null
      let fid ← pySubscr field "id"
      flattenFields (dictSet task ("custom_field_" ++ pyStr fid) v) rest

/-- The per-task body of `fetch_tasks` (main.py lines 54-64): flatten the
custom fields into the task dict itself, then inject `space_id` and
`list_id`.  `task.get(...)` on a non-dict raises AttributeError. -/

def flatten_task (space_id list_id : JVal) (task : JVal) : Except PyErr Dict :=
  match task with
  | .obj d => do
      let custom_fields := (dictGet d "custom_fields").getD (JVal.arr [])
      let fields ← pyIter custom_fields
      let d1 ← flattenFields d fields
      Except.ok (dictSet (dictSet d1 "space_id" space_id) "list_id" list_id)
  | _ => Except.error PyErr.attributeError

/-- `for task in list_tasks: ... tasks.append(task)`: the tasks contributed
by one list, in order. -/

def flattenAll (space_id list_id : JVal) : List JVal → Except PyErr (List Dict)
  | [] => Except.ok []
  | t :: rest => do
      let d ← flatten_task space_id list_id t
      let ds ← flattenAll space_id list_id rest
      Except.ok (d :: ds)

/-- The body of the `for list_obj in lists` loop of `fetch_tasks`
(main.py lines 48-64): build the tasks URL from `list_obj['id']`, fetch,
take `.get('tasks', [])`, iterate, and flatten each task. -/

def processList (api : Api) (space_id : JVal) (list_obj : JVal) : PyM (List Dict) := do
  let list_id ← liftE (pySubscr list_obj "id")
  let response ← httpGet api (Endpoint.tasks (pyStr list_id))
  let tasksV ← liftE (pyGetD response "tasks" (JVal.arr []))
  let list_tasks ← liftE (pyIter tasksV)
  liftE (flattenAll space_id list_id list_tasks)

/-- Iterating the `for list_obj in lists` loop, appending each list's tasks
to the accumulator. -/

def processLists (api : Api) (space_id : JVal) : List JVal → PyM (List Dict)
  | [] => pure []
  | l :: rest => do
      let ds ← processList api space_id l
      let rest1 ← processLists api space_id rest
      pure (ds ++ rest1)

/-- The body of the `for space in spaces` loop of `fetch_tasks`
(main.py lines 43-64): build the lists URL from `space['id']`, fetch,
take `.get('lists', [])`, iterate. -/

def processSpace (api : Api) (space : JVal) : PyM (List Dict) := do
  let space_id ← liftE (pySubscr space "id")
  let response ← httpGet api (Endpoint.lists (pyStr space_id))
  let listsV ← liftE (pyGetD response "lists" (JVal.arr []))
  let lists ← liftE (pyIter listsV)
  processLists api space_id lists

/-- Iterating the `for space in spaces` loop. -/

def processSpaces (api : Api) : List JVal → PyM (List Dict)
  | [] => pure []
  | s :: rest => do
      let ds ← processSpace api s
      let rest1 ← processSpaces api rest
      pure (ds ++ rest1)

/-- `fetch_tasks` (main.py lines 35-66). -/

def fetch_tasks (api : Api) (workspace_id : String) : PyM (List Dict) := do
  let response ← httpGet api (Endpoint.spaces workspace_id)
  let spacesV ← liftE (pyGetD response "spaces" (JVal.arr []))
  let spaces ← liftE (pyIter spacesV)
  processSpaces api spaces

/-- The fixed base schema of the `tasks` table (main.py lines 72-83). -/

def tasks_schema_base : List SchemaField :=
  [⟨"id", "STRING"⟩, ⟨"name", "STRING"⟩, ⟨"description", "STRING"⟩,
   ⟨"status", "STRING"⟩, ⟨"priority", "INTEGER"⟩, ⟨"due_date", "TIMESTAMP"⟩,
   ⟨"space_id", "STRING"⟩, ⟨"list_id", "STRING"⟩, ⟨"created_at", "TIMESTAMP"⟩,
   ⟨"updated_at", "TIMESTAMP"⟩]

/-- The `for field in custom_fields` loop of `create_tables_if_not_exist`
(main.py lines 87-96): default column type STRING, `number` maps to FLOAT,
`date` maps to TIMESTAMP; the column is named `custom_field_<field['id']>`
and appended to the schema. -/

def addCustomColumns (schema : List SchemaField) : List JVal → Except PyErr (List SchemaField)
  | [] => Except.ok schema
  | field :: rest => do
      let ftype ← pySubscr field "type"
      let field_type :=
        if pyEqStr ftype "number" then "FLOAT"
        else if pyEqStr ftype "date" then "TIMESTAMP"
        else "STRING"
      let fid ← pySubscr field "id"
      addCustomColumns (schema ++ [⟨"custom_field_" ++ pyStr fid, field_type⟩]) rest

/-- `create_tables_if_not_exist` (main.py lines 68-103): base schema, plus
one column per fetched custom-field definition, then
`create_table(..., exists_ok=True)`. -/

def create_tables_if_not_exist (api : Api) (workspace_id : String) : PyM Unit := do
  let custom_fields ← fetch_custom_fields api workspace_id
  let fieldsL ← liftE (pyIter custom_fields)
  let schema ← liftE (addCustomColumns tasks_schema_base fieldsL)
  tell (Event.createTable schema)

/-- The `try` body of `sync_data` (main.py lines 108-135): start log, create
tables, fetch tasks; if the task list is non-empty (Python truthiness of
`if tasks:`), issue the load job with `WRITE_TRUNCATE`, wait on it with
`job.result()` and log the count; finally log completion. -/

def sync_body (api : Api) (workspace_id : String) : PyM Unit := do
  logInfoM "Starting ClickUp to BigQuery sync"
  create_tables_if_not_exist api workspace_id
  let tasks ← fetch_tasks api workspace_id
  if tasks.isEmpty then
    pure ()
  else do
    tell (Event.loadJob tasks WriteDisposition.WRITE_TRUNCATE)
    tell Event.jobResult
    logInfoM ("Loaded " ++ toString tasks.length ++ " tasks to BigQuery")
  logInfoM "Sync completed successfully"

/-- `sync_data` (main.py lines 105-139): run the body; on any exception, log
`Error during sync: <str(e)>` and re-raise the same exception. -/

def sync_data (api : Api) (workspace_id : String) : PyM Unit :=
  match sync_body api workspace_id with
  | ⟨Except.ok a, t⟩ => ⟨Except.ok a, t⟩
  | ⟨Except.error e, t⟩ => ⟨Except.error e, t ++ [Event.logError ("Error during sync: " ++ PyErr.msg e)]⟩

/-! ## Concrete source-API instances used by witnesses and counterexamples -/

/-- One workspace custom-field definition: `F1` of kind `number`. -/

def fieldF1 : JVal := JVal.obj [("id", JVal.str "F1"), ("type", JVal.str "number")]

/-- One task, `T2`, carrying one custom-field value `F1 = "4.5"`. -/

def taskT2 : JVal :=
  JVal.obj [("id", JVal.str "T2"),
            ("custom_fields", JVal.arr [JVal.obj [("id", JVal.str "F1"), ("value", JVal.str "4.5")]])]

/-- A happy-path workspace: one custom-field definition, one space `S1`,
one list `L1`, one task `T2`. -/

def apiEx : Api := fun ep =>
  match ep with
  | .customFields _ => JVal.obj [("custom_fields", JVal.arr [fieldF1])]
  | .customTaskTypes _ => JVal.obj [("custom_task_types", JVal.arr [])]
  | .spaces _ => JVal.obj [("spaces", JVal.arr [JVal.obj [("id", JVal.str "S1")]])]
  | .lists _ => JVal.obj [("lists", JVal.arr [JVal.obj [("id", JVal.str "L1")]])]
  | .tasks _ => JVal.obj [("tasks", JVal.arr [taskT2])]

/-- The flattened record the extractor produces for `taskT2` under `apiEx`. -/

def taskT2Flat : Dict :=
  [("id", JVal.str "T2"),
   ("custom_fields", JVal.arr [JVal.obj [("id", JVal.str "F1"), ("value", JVal.str "4.5")]]),
   ("custom_field_F1", JVal.str "4.5"),
   ("space_id", JVal.str "S1"),
   ("list_id", JVal.str "L1")]

def builtSchema (api : Api) (ws : String) : Except PyErr (List SchemaField) := do
  let cf ← pyGetD (api (Endpoint.customFields ws)) "custom_fields" (JVal.arr [])
  let fieldsL ← pyIter cf
  addCustomColumns tasks_schema_base fieldsL

def fieldKey (f : JVal) : Option String :=
  match f with
  | .obj fd => (dictGet fd "id").map (fun i => "custom_field_" ++ pyStr i)
  | _ => none

/-- The value a custom-field entry contributes: `field.get('value')`, i.e.
the raw stored value, or `None` when absent. -/

def fieldVal (f : JVal) : JVal :=
  match f with
  | .obj fd => (dictGet fd "value").getD JVal.null
  | _ => JVal.null

/-- Whether one entry of the custom-fields collection survives the loop
without an exception: it must be a dict with an `id`. -/

def fieldEntryOk (f : JVal) : Bool :=
  match f with
  | .obj fd => (dictGet fd "id").isSome
  | _ => false

/-- The value the loop leaves at key `k`, determined by the collection alone:
the value of the last entry flattened to `k`, if any. -/

def lastAssign : List JVal → String → Option JVal
  | [], _ => none
  | f :: rest, k =>
      match lastAssign rest k with
      | some v => some v
      | none => if fieldKey f = some k then some (fieldVal f) else none

def spacesOf (api : Api) (ws : String) : Except PyErr (List JVal) := do
  let sv ← pyGetD (api (Endpoint.spaces ws)) "spaces" (JVal.arr [])
  pyIter sv

/-- The list of lists the extractor iterates over for the space with id
`sid`. -/

def listsOf (api : Api) (sid : JVal) : Except PyErr (List JVal) := do
  let lv ← pyGetD (api (Endpoint.lists (pyStr sid))) "lists" (JVal.arr [])
  pyIter lv

/-- The raw tasks the extractor iterates over for the list with id `lid`. -/

def tasksOfList (api : Api) (lid : JVal) : Except PyErr (List JVal) := do
  let tv ← pyGetD (api (Endpoint.tasks (pyStr lid))) "tasks" (JVal.arr [])
  pyIter tv

/-- The raw task `taskJ` is served by the source under a space with id `sid`
containing a list with id `lid`, along the exact path the extractor walks. -/

def fetchedUnder (api : Api) (ws : String) (sid lid taskJ : JVal) : Prop :=
  ∃ spaces space lists listObj listTasks,
    spacesOf api ws = Except.ok spaces ∧ space ∈ spaces ∧
    pySubscr space "id" = Except.ok sid ∧
    listsOf api sid = Except.ok lists ∧ listObj ∈ lists ∧
    pySubscr listObj "id" = Except.ok lid ∧
    tasksOfList api lid = Except.ok listTasks ∧ taskJ ∈ listTasks

def isExtractionEvent : Event → Bool
  | .apiCall (.spaces _) => true
  | .apiCall (.lists _) => true
  | .apiCall (.tasks _) => true
  | _ => false

/-- Schema-building events: the custom-fields fetch and the create-table
call. -/

def isSchemaEvent : Event → Bool
  | .apiCall (.customFields _) => true
  | .createTable _ => true
  | _ => false

/-- Load jobs issued against the warehouse. -/

def isLoadEvent : Event → Bool
  | .loadJob _ _ => true
  | _ => false

/-- Calls to the custom-task-types endpoint. -/

def isTaskTypeCall : Event → Bool
  | .apiCall (.customTaskTypes _) => true
  | _ => false

/-- The info-level log lines of a trace, in order. -/

def infoLogsOf (evs : List Event) : List String :=
  evs.filterMap fun e =>
    match e with
    | .logInfo s => some s
    | _ => none

def fieldOk (f : JVal) : Bool :=
  match f with
  | .obj fd => (dictGet fd "type").isSome && (dictGet fd "id").isSome
  | _ => false

/-- The declared kind of a definition (`field['type']`). -/

def fieldTypeOf (f : JVal) : JVal :=
  match f with
  | .obj fd => (dictGet fd "type").getD JVal.null
  | _ => JVal.null

/-- The id of a definition (`field['id']`). -/

def fieldIdOf (f : JVal) : JVal :=
  match f with
  | .obj fd => (dictGet fd "id").getD JVal.null
  | _ => JVal.null

/-- The column type derived from a declared kind, exactly as the loop decides
it: STRING by default, FLOAT for `number`, TIMESTAMP for `date`. -/

def columnType (t : JVal) : String :=
  if pyEqStr t "number" then "FLOAT"
  else if pyEqStr t "date" then "TIMESTAMP"
  else "STRING"

/-- The column derived from one well-formed definition. -/

def colOf (f : JVal) : SchemaField :=
  ⟨"custom_field_" ++ pyStr (fieldIdOf f), columnType (fieldTypeOf f)⟩

def apiC1 : Api := fun ep =>
  match ep with
  | .customFields _ => JVal.obj [("custom_fields", JVal.arr [JVal.obj [("id", JVal.str "f1")]])]
  | _ => JVal.null

/-- A task whose custom-fields collection holds two entries with the same id
`X` and different raw values. -/

def taskDup : JVal :=
  JVal.obj [("custom_fields", JVal.arr
    [JVal.obj [("id", JVal.str "X"), ("value", JVal.str "a")],
     JVal.obj [("id", JVal.str "X"), ("value", JVal.str "b")]])]

/-- A workspace serving `taskDup` under space `S1`, list `L1`. -/

def apiC2 : Api := fun ep =>
  match ep with
  | .customFields _ => JVal.obj [("custom_fields", JVal.arr [])]
  | .spaces _ => JVal.obj [("spaces", JVal.arr [JVal.obj [("id", JVal.str "S1")]])]
  | .lists _ => JVal.obj [("lists", JVal.arr [JVal.obj [("id", JVal.str "L1")]])]
  | .tasks _ => JVal.obj [("tasks", JVal.arr [taskDup])]
  | _ => JVal.null

/-- The record the extractor produces for `taskDup`: the later duplicate
entry's value `"b"` is what survives at `custom_field_X`. -/

def taskDupFlat : Dict :=
  [("custom_fields", JVal.arr
     [JVal.obj [("id", JVal.str "X"), ("value", JVal.str "a")],
      JVal.obj [("id", JVal.str "X"), ("value", JVal.str "b")]]),
   ("custom_field_X", JVal.str "b"),
   ("space_id", JVal.str "S1"),
   ("list_id", JVal.str "L1")]

/-- A workspace with no custom-field definitions and zero spaces. -/

def apiEmpty : Api := fun ep =>
  match ep with
  | .customFields _ => JVal.obj [("custom_fields", JVal.arr [])]
  | .spaces _ => JVal.obj [("spaces", JVal.arr [])]
  | _ => JVal.null

/-- A workspace whose lists-by-space endpoint returns a malformed body: a
JSON list where an object is expected, so `.get('lists', [])` raises. -/

def apiBadLists : Api := fun ep =>
  match ep with
  | .customFields _ => JVal.obj [("custom_fields", JVal.arr [])]
  | .spaces _ => JVal.obj [("spaces", JVal.arr [JVal.obj [("id", JVal.str "S1")]])]
  | .lists _ => JVal.arr []
  | _ => JVal.null

/-! ## Claim theorems -/

/-- Claim C3: every task record returned by the extractor contains the keys
`space_id` and `list_id`, equal to the identifier of the space and the
identifier of the list under which that task was fetched. -/

def apiNoKeys : Api := fun _ => JVal.obj []

/-- Claim C1 as amended: for every custom-field definition carrying a
declared kind, the derived column type is FLOAT for kind `number`, TIMESTAMP
for kind `date`, and STRING for any other declared kind; the built schema is
the base schema plus one such column per definition, in order.  (A definition
with an *absent* kind does not fall back to STRING: it makes the schema build
raise KeyError, see the counterexample.) -/

theorem pym_bind_def {α β : Type} (m : PyM α) (f : α → PyM β) :
    m >>= f =
      match m.res with
      | Except.ok a => ⟨(f a).res, m.events ++ (f a).events⟩
      | Except.error e => ⟨Except.error e, m.events⟩ := rfl

theorem pym_bind_ok {α β : Type} {m : PyM α} {a : α} (f : α → PyM β)
    (h : m.res = Except.ok a) :
    m >>= f = ⟨(f a).res, m.events ++ (f a).events⟩ := by
  rw [pym_bind_def, h]

theorem pym_bind_err {α β : Type} {m : PyM α} {e : PyErr} (f : α → PyM β)
    (h : m.res = Except.error e) :
    m >>= f = ⟨Except.error e, m.events⟩ := by
  rw [pym_bind_def, h]

theorem pym_pure {α : Type} (a : α) : (Pure.pure a : PyM α) = ⟨Except.ok a, []⟩ := rfl

theorem except_bind_ok {α β : Type} (a : α) (f : α → Except PyErr β) :
    (Except.ok a >>= f) = f a := rfl

theorem except_bind_err {α β : Type} (e : PyErr) (f : α → Except PyErr β) :
    ((Except.error e : Except PyErr α) >>= f) = Except.error e := rfl

/-! ## The embedded program

Each definition below mirrors one method (or one loop of a method) of the
Python class `ClickUpToBigQuery` in `src/clickup_to_bigquery/main.py`. -/

/-- `fetch_custom_fields` (main.py lines 23-27):
`response.json().get('custom_fields', [])`. -/

theorem dictGet_set_self (d : Dict) (k : String) (v : JVal) :
    dictGet (dictSet d k v) k = some v := by
  induction d with
  | nil => simp [dictGet, dictSet]
  | cons kv rest ih =>
      obtain ⟨k1, v1⟩ := kv
      by_cases h : k1 = k <;> simp [dictGet, dictSet, h, ih]

theorem dictGet_set_ne (d : Dict) (k k1 : String) (v : JVal) (h : k1 ≠ k) :
    dictGet (dictSet d k v) k1 = dictGet d k1 := by
  have hne : ¬k = k1 := fun hh => h (Eq.symm hh)
  induction d with
  | nil => simp [dictGet, dictSet, hne]
  | cons kv rest ih =>
      obtain ⟨k2, v2⟩ := kv
      by_cases h2 : k2 = k
      · subst h2
        simp [dictGet, dictSet, hne]
      · simp only [dictSet, if_neg h2, dictGet]
        by_cases h3 : k2 = k1 <;> simp [h3, ih]

/-! ## Explicit forms of the monadic definitions -/

theorem fetch_custom_fields_spec (api : Api) (ws : String) :
    fetch_custom_fields api ws =
      ⟨pyGetD (api (Endpoint.customFields ws)) "custom_fields" (JVal.arr []),
       [Event.apiCall (Endpoint.customFields ws)]⟩ := rfl

theorem fetch_custom_task_types_spec (api : Api) (ws : String) :
    fetch_custom_task_types api ws =
      ⟨pyGetD (api (Endpoint.customTaskTypes ws)) "custom_task_types" (JVal.arr []),
       [Event.apiCall (Endpoint.customTaskTypes ws)]⟩ := rfl

/-- The schema computation inside `create_tables_if_not_exist`, as a pure
fallible value. -/

theorem create_tables_spec (api : Api) (ws : String) :
    create_tables_if_not_exist api ws =
      match builtSchema api ws with
      | Except.ok sch => ⟨Except.ok (), [Event.apiCall (Endpoint.customFields ws), Event.createTable sch]⟩
      | Except.error e => ⟨Except.error e, [Event.apiCall (Endpoint.customFields ws)]⟩ := by
  unfold create_tables_if_not_exist builtSchema
  cases h1 : pyGetD (api (Endpoint.customFields ws)) "custom_fields" (JVal.arr []) with
  | error e => simp [fetch_custom_fields_spec, pym_bind_def, liftE, h1, except_bind_err]
  | ok cf =>
      cases h2 : pyIter cf with
      | error e => simp [fetch_custom_fields_spec, pym_bind_def, liftE, h1, h2, except_bind_ok, except_bind_err]
      | ok fieldsL =>
          cases h3 : addCustomColumns tasks_schema_base fieldsL with
          | error e =>
              simp [fetch_custom_fields_spec, pym_bind_def, liftE, h1, h2, h3, except_bind_ok, except_bind_err, tell]
          | ok sch =>
              simp [fetch_custom_fields_spec, pym_bind_def, liftE, h1, h2, h3, except_bind_ok, except_bind_err, tell]

theorem processList_spec (api : Api) (sid : JVal) (l : JVal) :
    processList api sid l =
      match pySubscr l "id" with
      | Except.error e => ⟨Except.error e, []⟩
      | Except.ok lid =>
          ⟨(do
              let tv ← pyGetD (api (Endpoint.tasks (pyStr lid))) "tasks" (JVal.arr [])
              let lts ← pyIter tv
              flattenAll sid lid lts : Except PyErr (List Dict)),
           [Event.apiCall (Endpoint.tasks (pyStr lid))]⟩ := by
  unfold processList
  cases h1 : pySubscr l "id" with
  | error e => simp [pym_bind_def, liftE, httpGet, h1]
  | ok lid =>
      cases h2 : pyGetD (api (Endpoint.tasks (pyStr lid))) "tasks" (JVal.arr []) with
      | error e => simp [pym_bind_def, liftE, httpGet, h1, h2, except_bind_ok, except_bind_err]
      | ok tv =>
          cases h3 : pyIter tv with
          | error e => simp [pym_bind_def, liftE, httpGet, h1, h2, h3, except_bind_ok, except_bind_err]
          | ok lts =>
              cases h4 : flattenAll sid lid lts with
              | error e => simp [pym_bind_def, liftE, httpGet, h1, h2, h3, h4, except_bind_ok, except_bind_err]
              | ok ds => simp [pym_bind_def, liftE, httpGet, h1, h2, h3, h4, except_bind_ok, except_bind_err]

theorem processLists_nil (api : Api) (sid : JVal) :
    processLists api sid [] = ⟨Except.ok [], []⟩ := rfl

theorem processLists_cons (api : Api) (sid : JVal) (l : JVal) (rest : List JVal) :
    processLists api sid (l :: rest) =
      match processList api sid l with
      | ⟨Except.error e, ev⟩ => ⟨Except.error e, ev⟩
      | ⟨Except.ok ds, ev⟩ =>
          match processLists api sid rest with
          | ⟨Except.error e, ev2⟩ => ⟨Except.error e, ev ++ ev2⟩
          | ⟨Except.ok rest1, ev2⟩ => ⟨Except.ok (ds ++ rest1), ev ++ ev2⟩ := by
  show processList api sid l >>= _ = _
  cases hm : processList api sid l with
  | mk r ev =>
      cases r with
      | error e => simp [pym_bind_def, hm]
      | ok ds =>
          cases hm2 : processLists api sid rest with
          | mk r2 ev2 =>
              cases r2 with
              | error e => simp [pym_bind_def, hm, hm2]
              | ok rest1 => simp [pym_bind_def, hm, hm2, pym_pure]

theorem processSpace_spec (api : Api) (space : JVal) :
    processSpace api space =
      match pySubscr space "id" with
      | Except.error e => ⟨Except.error e, []⟩
      | Except.ok sid =>
          match (do
              let lv ← pyGetD (api (Endpoint.lists (pyStr sid))) "lists" (JVal.arr [])
              pyIter lv : Except PyErr (List JVal)) with
          | Except.error e => ⟨Except.error e, [Event.apiCall (Endpoint.lists (pyStr sid))]⟩
          | Except.ok lists =>
              match processLists api sid lists with
              | ⟨r, ev⟩ => ⟨r, Event.apiCall (Endpoint.lists (pyStr sid)) :: ev⟩ := by
  unfold processSpace
  cases h1 : pySubscr space "id" with
  | error e => simp [pym_bind_def, liftE, httpGet, h1]
  | ok sid =>
      cases h2 : pyGetD (api (Endpoint.lists (pyStr sid))) "lists" (JVal.arr []) with
      | error e => simp [pym_bind_def, liftE, httpGet, h1, h2, except_bind_ok, except_bind_err]
      | ok lv =>
          cases h3 : pyIter lv with
          | error e => simp [pym_bind_def, liftE, httpGet, h1, h2, h3, except_bind_ok, except_bind_err]
          | ok lists =>
              cases hm : processLists api sid lists with
              | mk r ev => simp [pym_bind_def, liftE, httpGet, h1, h2, h3, hm, except_bind_ok, except_bind_err]

theorem processSpaces_nil (api : Api) :
    processSpaces api [] = ⟨Except.ok [], []⟩ := rfl

theorem processSpaces_cons (api : Api) (s : JVal) (rest : List JVal) :
    processSpaces api (s :: rest) =
      match processSpace api s with
      | ⟨Except.error e, ev⟩ => ⟨Except.error e, ev⟩
      | ⟨Except.ok ds, ev⟩ =>
          match processSpaces api rest with
          | ⟨Except.error e, ev2⟩ => ⟨Except.error e, ev ++ ev2⟩
          | ⟨Except.ok rest1, ev2⟩ => ⟨Except.ok (ds ++ rest1), ev ++ ev2⟩ := by
  show processSpace api s >>= _ = _
  cases hm : processSpace api s with
  | mk r ev =>
      cases r with
      | error e => simp [pym_bind_def, hm]
      | ok ds =>
          cases hm2 : processSpaces api rest with
          | mk r2 ev2 =>
              cases r2 with
              | error e => simp [pym_bind_def, hm, hm2]
              | ok rest1 => simp [pym_bind_def, hm, hm2, pym_pure]

theorem fetch_tasks_spec (api : Api) (ws : String) :
    fetch_tasks api ws =
      match (do
          let sv ← pyGetD (api (Endpoint.spaces ws)) "spaces" (JVal.arr [])
          pyIter sv : Except PyErr (List JVal)) with
      | Except.error e => ⟨Except.error e, [Event.apiCall (Endpoint.spaces ws)]⟩
      | Except.ok spaces =>
          match processSpaces api spaces with
          | ⟨r, ev⟩ => ⟨r, Event.apiCall (Endpoint.spaces ws) :: ev⟩ := by
  unfold fetch_tasks
  cases h1 : pyGetD (api (Endpoint.spaces ws)) "spaces" (JVal.arr []) with
  | error e => simp [pym_bind_def, liftE, httpGet, h1, except_bind_ok, except_bind_err]
  | ok sv =>
      cases h2 : pyIter sv with
      | error e => simp [pym_bind_def, liftE, httpGet, h1, h2, except_bind_ok, except_bind_err]
      | ok spaces =>
          cases hm : processSpaces api spaces with
          | mk r ev => simp [pym_bind_def, liftE, httpGet, h1, h2, hm, except_bind_ok, except_bind_err]

theorem sync_body_spec (api : Api) (ws : String) :
    sync_body api ws =
      match create_tables_if_not_exist api ws with
      | ⟨Except.error e, evC⟩ => ⟨Except.error e, Event.logInfo "Starting ClickUp to BigQuery sync" :: evC⟩
      | ⟨Except.ok _, evC⟩ =>
          match fetch_tasks api ws with
          | ⟨Except.error e, evF⟩ =>
              ⟨Except.error e, Event.logInfo "Starting ClickUp to BigQuery sync" :: (evC ++ evF)⟩
          | ⟨Except.ok tasks, evF⟩ =>
              ⟨Except.ok (),
               Event.logInfo "Starting ClickUp to BigQuery sync" ::
                 (evC ++ evF ++
                   (if tasks.isEmpty then [] else
                     [Event.loadJob tasks WriteDisposition.WRITE_TRUNCATE, Event.jobResult,
                      Event.logInfo ("Loaded " ++ toString tasks.length ++ " tasks to BigQuery")]) ++
                   [Event.logInfo "Sync completed successfully"])⟩ := by
  unfold sync_body
  cases hc : create_tables_if_not_exist api ws with
  | mk rc evC =>
      cases rc with
      | error e => simp [pym_bind_def, logInfoM, tell, hc]
      | ok u =>
          cases hf : fetch_tasks api ws with
          | mk rf evF =>
              cases rf with
              | error e => simp [pym_bind_def, logInfoM, tell, hc, hf]
              | ok tasks =>
                  by_cases ht : tasks.isEmpty <;>
                    simp [pym_bind_def, logInfoM, tell, hc, hf, ht, pym_pure]

/-! ## Characterising the custom-field flattening loop -/

/-- The top-level key a custom-field entry is flattened to (`some` exactly
when the entry is a dict carrying an `id`). -/

theorem fieldEntryOk_of_key {f : JVal} {k : String} (h : fieldKey f = some k) :
    fieldEntryOk f = true := by
  cases f <;> simp [fieldKey, fieldEntryOk, Option.isSome] at h ⊢
  cases hid : dictGet _ "id" <;> simp [hid] at h ⊢

theorem flattenFields_ok_entries {task : Dict} {fields : List JVal} {d1 : Dict}
    (h : flattenFields task fields = Except.ok d1) :
    ∀ f ∈ fields, fieldEntryOk f = true := by
  induction fields generalizing task with
  | nil => simp
  | cons f rest ih =>
      intro g hg
      simp only [flattenFields] at h
      cases f with
      | obj fd =>
          simp only [pyGetD, except_bind_ok] at h
          cases hid : dictGet fd "id" with
          | none => simp [pySubscr, hid, except_bind_err] at h
          | some fid =>
              simp only [pySubscr, hid, except_bind_ok] at h
              rcases List.mem_cons.mp hg with hg | hg
              · subst hg; simp [fieldEntryOk, hid]
              · exact ih h g hg
      | null => simp [pyGetD, except_bind_err] at h
      | bool b => simp [pyGetD, except_bind_err] at h
      | num n => simp [pyGetD, except_bind_err] at h
      | str s => simp [pyGetD, except_bind_err] at h
      | arr xs => simp [pyGetD, except_bind_err] at h

theorem flattenFields_ok_of_entries {fields : List JVal}
    (hok : ∀ f ∈ fields, fieldEntryOk f = true) (task : Dict) :
    ∃ d1, flattenFields task fields = Except.ok d1 := by
  induction fields generalizing task with
  | nil => exact ⟨task, rfl⟩
  | cons f rest ih =>
      have hf := hok f (by simp)
      cases f with
      | obj fd =>
          cases hid : dictGet fd "id" with
          | none => simp [fieldEntryOk, hid] at hf
          | some fid =>
              obtain ⟨d1, hd1⟩ := ih (fun g hg => hok g (List.mem_cons_of_mem _ hg))
                (dictSet task ("custom_field_" ++ pyStr fid) ((dictGet fd "value").getD JVal.null))
              exact ⟨d1, by simp [flattenFields, pyGetD, pySubscr, hid, except_bind_ok, hd1]⟩
      | null => simp [fieldEntryOk] at hf
      | bool b => simp [fieldEntryOk] at hf
      | num n => simp [fieldEntryOk] at hf
      | str s => simp [fieldEntryOk] at hf
      | arr xs => simp [fieldEntryOk] at hf

/-- What the flattening loop leaves at each key: the last assignment from the
collection when there is one, the original dict entry otherwise. -/

theorem flattenFields_get {task : Dict} {fields : List JVal} {d1 : Dict}
    (h : flattenFields task fields = Except.ok d1) (k : String) :
    dictGet d1 k = (lastAssign fields k).elim (dictGet task k) some := by
  induction fields generalizing task with
  | nil =>
      simp only [flattenFields] at h
      cases h
      simp [lastAssign, Option.elim]
  | cons f rest ih =>
      simp only [flattenFields] at h
      cases f with
      | obj fd =>
          simp only [pyGetD, except_bind_ok] at h
          cases hid : dictGet fd "id" with
          | none => simp [pySubscr, hid, except_bind_err] at h
          | some fid =>
              simp only [pySubscr, hid, except_bind_ok] at h
              have hrec := ih h
              have hkey : fieldKey (JVal.obj fd) = some ("custom_field_" ++ pyStr fid) := by
                simp [fieldKey, hid]
              have hval : fieldVal (JVal.obj fd) = (dictGet fd "value").getD JVal.null := by
                simp [fieldVal]
              rw [hrec]
              simp only [lastAssign]
              cases hla : lastAssign rest k with
              | some v => simp [Option.elim]
              | none =>
                  simp only [Option.elim]
                  by_cases hkk : ("custom_field_" ++ pyStr fid) = k
                  · subst hkk
                    simp [hkey, dictGet_set_self, Option.elim, hval]
                  · have : ¬fieldKey (JVal.obj fd) = some k := by
                      rw [hkey]; simp [hkk]
                    simp [this, Option.elim, dictGet_set_ne _ _ _ _ (fun hh => hkk (Eq.symm hh))]
      | null => simp [pyGetD, except_bind_err] at h
      | bool b => simp [pyGetD, except_bind_err] at h
      | num n => simp [pyGetD, except_bind_err] at h
      | str s => simp [pyGetD, except_bind_err] at h
      | arr xs => simp [pyGetD, except_bind_err] at h

theorem flatten_task_obj_ok {sid lid : JVal} {d : Dict} {fields : List JVal} {d1 : Dict}
    (h1 : pyIter ((dictGet d "custom_fields").getD (JVal.arr [])) = Except.ok fields)
    (h2 : flattenFields d fields = Except.ok d1) :
    flatten_task sid lid (JVal.obj d) =
      Except.ok (dictSet (dictSet d1 "space_id" sid) "list_id" lid) := by
  simp [flatten_task, h1, h2, except_bind_ok]

theorem flatten_task_obj_inv {sid lid : JVal} {d : Dict} {d2 : Dict}
    (h : flatten_task sid lid (JVal.obj d) = Except.ok d2) :
    ∃ fields d1,
      pyIter ((dictGet d "custom_fields").getD (JVal.arr [])) = Except.ok fields ∧
      flattenFields d fields = Except.ok d1 ∧
      d2 = dictSet (dictSet d1 "space_id" sid) "list_id" lid := by
  replace h : (do
      let fields ← pyIter ((dictGet d "custom_fields").getD (JVal.arr []))
      let d1 ← flattenFields d fields
      Except.ok (dictSet (dictSet d1 "space_id" sid) "list_id" lid) :
        Except PyErr Dict) = Except.ok d2 := h
  cases h1 : pyIter ((dictGet d "custom_fields").getD (JVal.arr [])) with
  | error e => rw [h1, except_bind_err] at h; exact absurd h (by simp)
  | ok fields =>
      rw [h1, except_bind_ok] at h
      cases h2 : flattenFields d fields with
      | error e => rw [h2, except_bind_err] at h; exact absurd h (by simp)
      | ok d1 =>
          rw [h2, except_bind_ok] at h
          cases h
          exact ⟨fields, d1, rfl, h2, rfl⟩

/-- A record can only come out of the per-task body if the task is a dict. -/

theorem flatten_task_ok_obj {sid lid t : JVal} {d : Dict}
    (h : flatten_task sid lid t = Except.ok d) :
    ∃ d0, t = JVal.obj d0 := by
  cases t with
  | obj d0 => exact ⟨d0, rfl⟩
  | null => exact absurd h (by simp [flatten_task])
  | bool b => exact absurd h (by simp [flatten_task])
  | num n => exact absurd h (by simp [flatten_task])
  | str s => exact absurd h (by simp [flatten_task])
  | arr xs => exact absurd h (by simp [flatten_task])

/-- A column/key built from a custom-field id collides with none of
`space_id`, `list_id`, `custom_fields`. -/

theorem customKey_ne (s : String) :
    "custom_field_" ++ s ≠ "space_id" ∧ "custom_field_" ++ s ≠ "list_id" ∧
      "custom_field_" ++ s ≠ "custom_fields" := by
  have hlen : ("custom_field_" ++ s).length = 13 + s.length := String.length_append _ s
  have hempty : s.length = 0 → s = "" := by
    intro h
    cases s with
    | mk data =>
        cases data with
        | nil => rfl
        | cons c cs => simp [String.length] at h
  have h8 : ("space_id" : String).length = 8 := by decide
  have h7 : ("list_id" : String).length = 7 := by decide
  have h13 : ("custom_fields" : String).length = 13 := by decide
  refine ⟨?_, ?_, ?_⟩
  · intro h
    have hl := congrArg String.length h
    rw [hlen, h8] at hl
    omega
  · intro h
    have hl := congrArg String.length h
    rw [hlen, h7] at hl
    omega
  · intro h
    have hl := congrArg String.length h
    rw [hlen, h13] at hl
    have hs0 : s.length = 0 := by omega
    rw [hempty hs0] at h
    exact absurd h (by decide)

/-- Every record the per-task body produces carries the injected containing
identifiers under `space_id` and `list_id`. -/

theorem flatten_task_context {sid lid t : JVal} {d : Dict}
    (h : flatten_task sid lid t = Except.ok d) :
    dictGet d "space_id" = some sid ∧ dictGet d "list_id" = some lid := by
  obtain ⟨d0, rfl⟩ := flatten_task_ok_obj h
  obtain ⟨fields, d1, h1, h2, rfl⟩ := flatten_task_obj_inv h
  constructor
  · rw [dictGet_set_ne _ _ _ _ (by decide), dictGet_set_self]
  · rw [dictGet_set_self]

/-- What the flattened record holds at any key other than the two injected
ones: the last value the custom-fields collection assigns there, or the
task's original attribute when the collection assigns nothing. -/

theorem flatten_task_get {sid lid : JVal} {d : Dict} {fields : List JVal} {d2 : Dict}
    (hit : pyIter ((dictGet d "custom_fields").getD (JVal.arr [])) = Except.ok fields)
    (h : flatten_task sid lid (JVal.obj d) = Except.ok d2)
    (k : String) (hk1 : k ≠ "space_id") (hk2 : k ≠ "list_id") :
    dictGet d2 k = (lastAssign fields k).elim (dictGet d k) some := by
  obtain ⟨fields2, d1, h1, h2, rfl⟩ := flatten_task_obj_inv h
  rw [hit] at h1
  cases h1
  rw [dictGet_set_ne _ _ _ _ hk2, dictGet_set_ne _ _ _ _ hk1]
  exact flattenFields_get h2 k

/-! ## Provenance of extracted records -/

/-- The list of spaces the extractor iterates over:
`requests.get(spaces_url).json().get('spaces', [])`, iterated. -/

theorem flattenAll_mem {sid lid : JVal} {ts : List JVal} {ds : List Dict}
    (h : flattenAll sid lid ts = Except.ok ds) {d : Dict} (hd : d ∈ ds) :
    ∃ t ∈ ts, flatten_task sid lid t = Except.ok d := by
  induction ts generalizing ds with
  | nil =>
      simp only [flattenAll] at h
      cases h
      simp at hd
  | cons t rest ih =>
      simp only [flattenAll] at h
      cases ha : flatten_task sid lid t with
      | error e => rw [ha, except_bind_err] at h; exact absurd h (by simp)
      | ok d0 =>
          rw [ha, except_bind_ok] at h
          cases hb : flattenAll sid lid rest with
          | error e => rw [hb, except_bind_err] at h; exact absurd h (by simp)
          | ok ds0 =>
              rw [hb, except_bind_ok] at h
              cases h
              rcases List.mem_cons.mp hd with hd | hd
              · subst hd; exact ⟨t, by simp, ha⟩
              · obtain ⟨t1, ht1, hft⟩ := ih hb hd
                exact ⟨t1, by simp [ht1], hft⟩

theorem processList_inv {api : Api} {sid l : JVal} {ds : List Dict} {ev : List Event}
    (h : processList api sid l = ⟨Except.ok ds, ev⟩) :
    ∃ lid listTasks,
      pySubscr l "id" = Except.ok lid ∧
      tasksOfList api lid = Except.ok listTasks ∧
      flattenAll sid lid listTasks = Except.ok ds ∧
      ev = [Event.apiCall (Endpoint.tasks (pyStr lid))] := by
  rw [processList_spec] at h
  cases h1 : pySubscr l "id" with
  | error e => rw [h1] at h; exact absurd h (by simp)
  | ok lid =>
      rw [h1] at h
      simp only at h
      cases h2 : pyGetD (api (Endpoint.tasks (pyStr lid))) "tasks" (JVal.arr []) with
      | error e => rw [h2, except_bind_err] at h; exact absurd h (by simp [PyM.mk.injEq])
      | ok tv =>
          rw [h2, except_bind_ok] at h
          cases h3 : pyIter tv with
          | error e => rw [h3, except_bind_err] at h; exact absurd h (by simp [PyM.mk.injEq])
          | ok lts =>
              rw [h3, except_bind_ok] at h
              have hres := congrArg PyM.res h
              have hev := congrArg PyM.events h
              simp only at hres hev
              exact ⟨lid, lts, rfl, by simp [tasksOfList, h2, h3, except_bind_ok], hres, hev.symm⟩

theorem processLists_mem {api : Api} {sid : JVal} {ls : List JVal} {ds : List Dict}
    {ev : List Event} (h : processLists api sid ls = ⟨Except.ok ds, ev⟩)
    {d : Dict} (hd : d ∈ ds) :
    ∃ l ∈ ls, ∃ dsl evl, processList api sid l = ⟨Except.ok dsl, evl⟩ ∧ d ∈ dsl := by
  induction ls generalizing ds ev with
  | nil =>
      rw [processLists_nil] at h
      cases h
      simp at hd
  | cons l rest ih =>
      rw [processLists_cons] at h
      cases hm : processList api sid l with
      | mk r ev1 =>
          cases r with
          | error e =>
              rw [hm] at h
              simp only at h
              exact absurd h (by simp [PyM.mk.injEq])
          | ok ds1 =>
              rw [hm] at h
              simp only at h
              cases hm2 : processLists api sid rest with
              | mk r2 ev2 =>
                  cases r2 with
                  | error e =>
                      rw [hm2] at h
                      simp only at h
                      exact absurd h (by simp [PyM.mk.injEq])
                  | ok rest1 =>
                      rw [hm2] at h
                      simp only at h
                      have hds2 : ds = ds1 ++ rest1 := by
                        have := congrArg PyM.res h
                        simp only at this
                        exact (Except.ok.inj this).symm
                      subst hds2
                      rcases List.mem_append.mp hd with hd | hd
                      · exact ⟨l, by simp, ds1, ev1, hm, hd⟩
                      · obtain ⟨l1, hl1, dsl, evl, hpl, hdl⟩ := ih hm2 hd
                        exact ⟨l1, by simp [hl1], dsl, evl, hpl, hdl⟩

theorem processSpace_inv {api : Api} {space : JVal} {ds : List Dict} {ev : List Event}
    (h : processSpace api space = ⟨Except.ok ds, ev⟩) :
    ∃ sid lists evl,
      pySubscr space "id" = Except.ok sid ∧
      listsOf api sid = Except.ok lists ∧
      processLists api sid lists = ⟨Except.ok ds, evl⟩ := by
  rw [processSpace_spec] at h
  cases h1 : pySubscr space "id" with
  | error e => rw [h1] at h; exact absurd h (by simp)
  | ok sid =>
      rw [h1] at h
      simp only at h
      cases h2 : pyGetD (api (Endpoint.lists (pyStr sid))) "lists" (JVal.arr []) with
      | error e => rw [h2, except_bind_err] at h; exact absurd h (by simp [PyM.mk.injEq])
      | ok lv =>
          rw [h2, except_bind_ok] at h
          cases h3 : pyIter lv with
          | error e =>
              rw [h3] at h
              simp only at h
              exact absurd h (by simp [PyM.mk.injEq])
          | ok lists =>
              rw [h3] at h
              simp only at h
              cases hm : processLists api sid lists with
              | mk r evl =>
                  rw [hm] at h
                  simp only at h
                  have hres := congrArg PyM.res h
                  simp only at hres
                  exact ⟨sid, lists, evl,
                    rfl, by simp [listsOf, h2, h3, except_bind_ok], by rw [hm, hres]⟩

theorem processSpaces_mem {api : Api} {ss : List JVal} {ds : List Dict}
    {ev : List Event} (h : processSpaces api ss = ⟨Except.ok ds, ev⟩)
    {d : Dict} (hd : d ∈ ds) :
    ∃ s ∈ ss, ∃ dss evs, processSpace api s = ⟨Except.ok dss, evs⟩ ∧ d ∈ dss := by
  induction ss generalizing ds ev with
  | nil =>
      rw [processSpaces_nil] at h
      cases h
      simp at hd
  | cons s rest ih =>
      rw [processSpaces_cons] at h
      cases hm : processSpace api s with
      | mk r ev1 =>
          cases r with
          | error e =>
              rw [hm] at h
              simp only at h
              exact absurd h (by simp [PyM.mk.injEq])
          | ok ds1 =>
              rw [hm] at h
              simp only at h
              cases hm2 : processSpaces api rest with
              | mk r2 ev2 =>
                  cases r2 with
                  | error e =>
                      rw [hm2] at h
                      simp only at h
                      exact absurd h (by simp [PyM.mk.injEq])
                  | ok rest1 =>
                      rw [hm2] at h
                      simp only at h
                      have hds2 : ds = ds1 ++ rest1 := by
                        have := congrArg PyM.res h
                        simp only at this
                        exact (Except.ok.inj this).symm
                      subst hds2
                      rcases List.mem_append.mp hd with hd | hd
                      · exact ⟨s, by simp, ds1, ev1, hm, hd⟩
                      · obtain ⟨s1, hs1, dss, evs, hps, hdl⟩ := ih hm2 hd
                        exact ⟨s1, by simp [hs1], dss, evs, hps, hdl⟩

/-- Every record the extractor returns arises by flattening a raw task served
under some space/list pair on the walked path. -/

theorem fetch_tasks_mem {api : Api} {ws : String} {tasks : List Dict} {ev : List Event}
    (h : fetch_tasks api ws = ⟨Except.ok tasks, ev⟩) {d : Dict} (hd : d ∈ tasks) :
    ∃ sid lid taskJ,
      fetchedUnder api ws sid lid taskJ ∧ flatten_task sid lid taskJ = Except.ok d := by
  rw [fetch_tasks_spec] at h
  cases h1 : pyGetD (api (Endpoint.spaces ws)) "spaces" (JVal.arr []) with
  | error e => rw [h1, except_bind_err] at h; exact absurd h (by simp [PyM.mk.injEq])
  | ok sv =>
      rw [h1, except_bind_ok] at h
      cases h2 : pyIter sv with
      | error e =>
          rw [h2] at h
          simp only at h
          exact absurd h (by simp [PyM.mk.injEq])
      | ok spaces =>
          rw [h2] at h
          simp only at h
          cases hm : processSpaces api spaces with
          | mk r ev1 =>
              rw [hm] at h
              simp only at h
              have hres := congrArg PyM.res h
              simp only at hres
              obtain ⟨s, hs, dss, evs, hps, hdss⟩ :=
                processSpaces_mem (hres ▸ hm) hd
              obtain ⟨sid, lists, evl, hsid, hlists, hpl⟩ := processSpace_inv hps
              obtain ⟨l, hl, dsl, evl2, hplist, hdl⟩ := processLists_mem hpl hdss
              obtain ⟨lid, listTasks, hlid, htasks, hfa, hev⟩ := processList_inv hplist
              obtain ⟨taskJ, htJ, hft⟩ := flattenAll_mem hfa hdl
              exact ⟨sid, lid, taskJ,
                ⟨spaces, s, lists, l, listTasks,
                  by simp [spacesOf, h1, h2, except_bind_ok], hs, hsid, hlists, hl, hlid,
                  htasks, htJ⟩, hft⟩

/-! ## Classifying trace events -/

/-- Extraction-stage API calls: the spaces, lists and tasks endpoints. -/

theorem processList_events (api : Api) (sid l : JVal) :
    ∀ e ∈ (processList api sid l).events, isExtractionEvent e = true := by
  rw [processList_spec]
  cases h1 : pySubscr l "id" with
  | error e => simp
  | ok lid => simp [isExtractionEvent]

theorem processLists_events (api : Api) (sid : JVal) (ls : List JVal) :
    ∀ e ∈ (processLists api sid ls).events, isExtractionEvent e = true := by
  induction ls with
  | nil => simp [processLists_nil]
  | cons l rest ih =>
      rw [processLists_cons]
      cases hm : processList api sid l with
      | mk r ev1 =>
          have hev1 : ∀ e ∈ ev1, isExtractionEvent e = true := by
            intro e he
            exact processList_events api sid l e (by rw [hm]; exact he)
          cases r with
          | error e => simpa using hev1
          | ok ds1 =>
              cases hm2 : processLists api sid rest with
              | mk r2 ev2 =>
                  have hev2 : ∀ e ∈ ev2, isExtractionEvent e = true := by
                    intro e he
                    exact ih e (by rw [hm2]; exact he)
                  cases r2 with
                  | error e =>
                      intro e he
                      simp only at he
                      rcases List.mem_append.mp he with he | he
                      · exact hev1 e he
                      · exact hev2 e he
                  | ok rest1 =>
                      intro e he
                      simp only at he
                      rcases List.mem_append.mp he with he | he
                      · exact hev1 e he
                      · exact hev2 e he

theorem processSpace_events (api : Api) (space : JVal) :
    ∀ e ∈ (processSpace api space).events, isExtractionEvent e = true := by
  cases h1 : pySubscr space "id" with
  | error e => rw [processSpace_spec, h1]; simp
  | ok sid =>
      rw [processSpace_spec, h1]
      simp only
      cases h2 : pyGetD (api (Endpoint.lists (pyStr sid))) "lists" (JVal.arr []) with
      | error e => simp [except_bind_err, isExtractionEvent]
      | ok lv =>
          rw [except_bind_ok]
          cases h3 : pyIter lv with
          | error e => simp [isExtractionEvent]
          | ok lists =>
              simp only
              intro e he
              replace he : e ∈ Event.apiCall (Endpoint.lists (pyStr sid)) ::
                  (processLists api sid lists).events := he
              rcases List.mem_cons.mp he with he | he
              · subst he; rfl
              · exact processLists_events api sid lists e he

theorem processSpaces_events (api : Api) (ss : List JVal) :
    ∀ e ∈ (processSpaces api ss).events, isExtractionEvent e = true := by
  induction ss with
  | nil => simp [processSpaces_nil]
  | cons s rest ih =>
      rw [processSpaces_cons]
      cases hm : processSpace api s with
      | mk r ev1 =>
          have hev1 : ∀ e ∈ ev1, isExtractionEvent e = true := by
            intro e he
            exact processSpace_events api s e (by rw [hm]; exact he)
          cases r with
          | error e => simpa using hev1
          | ok ds1 =>
              cases hm2 : processSpaces api rest with
              | mk r2 ev2 =>
                  have hev2 : ∀ e ∈ ev2, isExtractionEvent e = true := by
                    intro e he
                    exact ih e (by rw [hm2]; exact he)
                  cases r2 with
                  | error e =>
                      intro e he
                      simp only at he
                      rcases List.mem_append.mp he with he | he
                      · exact hev1 e he
                      · exact hev2 e he
                  | ok rest1 =>
                      intro e he
                      simp only at he
                      rcases List.mem_append.mp he with he | he
                      · exact hev1 e he
                      · exact hev2 e he

/-- Every event the extractor emits is an extraction-stage API call: it never
creates tables, loads data or logs. -/

theorem fetch_tasks_events (api : Api) (ws : String) :
    ∀ e ∈ (fetch_tasks api ws).events, isExtractionEvent e = true := by
  rw [fetch_tasks_spec]
  cases h1 : pyGetD (api (Endpoint.spaces ws)) "spaces" (JVal.arr []) with
  | error e => simp [except_bind_err, isExtractionEvent]
  | ok sv =>
      rw [except_bind_ok]
      cases h2 : pyIter sv with
      | error e => simp [isExtractionEvent]
      | ok spaces =>
          simp only
          intro e he
          replace he : e ∈ Event.apiCall (Endpoint.spaces ws) ::
              (processSpaces api spaces).events := he
          rcases List.mem_cons.mp he with he | he
          · subst he; rfl
          · exact processSpaces_events api spaces e he

/-- Every event the schema builder emits is the custom-fields fetch or the
create-table call. -/

theorem create_tables_events (api : Api) (ws : String) :
    ∀ e ∈ (create_tables_if_not_exist api ws).events, isSchemaEvent e = true := by
  rw [create_tables_spec]
  cases h1 : builtSchema api ws with
  | error e => simp [isSchemaEvent]
  | ok sch =>
      intro e he
      simp only at he
      rcases List.mem_cons.mp he with he | he
      · subst he; rfl
      · simp at he
        subst he; rfl

theorem isExtractionEvent_shape {e : Event} (h : isExtractionEvent e = true) :
    (∀ rows disp, e ≠ Event.loadJob rows disp) ∧ (∀ s, e ≠ Event.logInfo s) ∧
      (∀ s, e ≠ Event.logError s) ∧ isTaskTypeCall e = false ∧ isLoadEvent e = false := by
  cases e with
  | apiCall ep => cases ep <;> simp [isTaskTypeCall, isLoadEvent] <;> simp [isExtractionEvent] at h
  | createTable sch => simp [isExtractionEvent] at h
  | loadJob rows disp => simp [isExtractionEvent] at h
  | jobResult => simp [isTaskTypeCall, isLoadEvent]
  | logInfo s => simp [isExtractionEvent] at h
  | logError s => simp [isExtractionEvent] at h

theorem isSchemaEvent_shape {e : Event} (h : isSchemaEvent e = true) :
    (∀ rows disp, e ≠ Event.loadJob rows disp) ∧ (∀ s, e ≠ Event.logInfo s) ∧
      (∀ s, e ≠ Event.logError s) ∧ isTaskTypeCall e = false ∧ isLoadEvent e = false := by
  cases e with
  | apiCall ep => cases ep <;> simp [isTaskTypeCall, isLoadEvent] <;> simp [isSchemaEvent] at h
  | createTable sch => simp [isTaskTypeCall, isLoadEvent]
  | loadJob rows disp => simp [isSchemaEvent] at h
  | jobResult => simp [isSchemaEvent] at h
  | logInfo s => simp [isSchemaEvent] at h
  | logError s => simp [isSchemaEvent] at h

/-! ## The schema builder on well-formed field definitions -/

/-- A custom-field definition as the schema loop requires it: a dict with
both a declared kind and an id. -/

theorem addCustomColumns_ok {fields : List JVal}
    (hok : ∀ f ∈ fields, fieldOk f = true) (sch : List SchemaField) :
    addCustomColumns sch fields = Except.ok (sch ++ fields.map colOf) := by
  induction fields generalizing sch with
  | nil => simp [addCustomColumns]
  | cons f rest ih =>
      have hf := hok f (by simp)
      cases f with
      | obj fd =>
          cases hty : dictGet fd "type" with
          | none => simp [fieldOk, hty] at hf
          | some ty =>
              cases hid : dictGet fd "id" with
              | none => simp [fieldOk, hty, hid] at hf
              | some fid =>
                  have hrec := ih (fun g hg => hok g (List.mem_cons_of_mem _ hg))
                    (sch ++ [⟨"custom_field_" ++ pyStr fid, columnType ty⟩])
                  simp only [addCustomColumns, pySubscr, hty, hid, except_bind_ok]
                  rw [show (if pyEqStr ty "number" then "FLOAT"
                      else if pyEqStr ty "date" then "TIMESTAMP" else "STRING") = columnType ty from rfl]
                  rw [hrec]
                  simp [colOf, fieldIdOf, fieldTypeOf, hty, hid]
      | null => simp [fieldOk] at hf
      | bool b => simp [fieldOk] at hf
      | num n => simp [fieldOk] at hf
      | str s => simp [fieldOk] at hf
      | arr xs => simp [fieldOk] at hf

/-! ## Decomposing a whole sync run -/

theorem sync_data_of_body_ok {api : Api} {ws : String} {ev : List Event}
    (hb : sync_body api ws = ⟨Except.ok (), ev⟩) :
    sync_data api ws = ⟨Except.ok (), ev⟩ := by
  unfold sync_data
  rw [hb]

theorem sync_data_of_body_err {api : Api} {ws : String} {e : PyErr} {ev : List Event}
    (hb : sync_body api ws = ⟨Except.error e, ev⟩) :
    sync_data api ws = ⟨Except.error e, ev ++ [Event.logError ("Error during sync: " ++ PyErr.msg e)]⟩ := by
  unfold sync_data
  rw [hb]

/-- A successful run, decomposed: start log, schema-builder events, extractor
events, the conditional load segment, completion log. -/

theorem sync_data_ok {api : Api} {ws : String} {evC evF : List Event} {tasks : List Dict}
    (hc : create_tables_if_not_exist api ws = ⟨Except.ok (), evC⟩)
    (hf : fetch_tasks api ws = ⟨Except.ok tasks, evF⟩) :
    sync_data api ws =
      ⟨Except.ok (),
       Event.logInfo "Starting ClickUp to BigQuery sync" ::
         (evC ++ evF ++
           (if tasks.isEmpty then [] else
             [Event.loadJob tasks WriteDisposition.WRITE_TRUNCATE, Event.jobResult,
              Event.logInfo ("Loaded " ++ toString tasks.length ++ " tasks to BigQuery")]) ++
           [Event.logInfo "Sync completed successfully"])⟩ := by
  apply sync_data_of_body_ok
  rw [sync_body_spec, hc, hf]

/-- A run whose extraction stage raises: the same exception is logged at the
top level and re-raised, and the trace shows no load. -/

theorem sync_data_fetch_err {api : Api} {ws : String} {evC evF : List Event} {e : PyErr}
    (hc : create_tables_if_not_exist api ws = ⟨Except.ok (), evC⟩)
    (hf : fetch_tasks api ws = ⟨Except.error e, evF⟩) :
    sync_data api ws =
      ⟨Except.error e,
       Event.logInfo "Starting ClickUp to BigQuery sync" :: (evC ++ evF) ++
         [Event.logError ("Error during sync: " ++ PyErr.msg e)]⟩ := by
  apply sync_data_of_body_err
  rw [sync_body_spec, hc, hf]

/-! ## Remaining helper lemmas -/

theorem lastAssign_key_isSome {fields : List JVal} {f : JVal} {k : String}
    (hf : f ∈ fields) (hk : fieldKey f = some k) :
    (lastAssign fields k).isSome = true := by
  induction fields with
  | nil => simp at hf
  | cons g rest ih =>
      rcases List.mem_cons.mp hf with hf | hf
      · subst hf
        simp only [lastAssign]
        cases hla : lastAssign rest k with
        | some v => simp
        | none => simp [hk]
      · have := ih hf
        simp only [lastAssign]
        cases hla : lastAssign rest k with
        | some v => simp
        | none => rw [hla] at this; simp at this

theorem create_tables_ok_inv {api : Api} {ws : String} {evC : List Event}
    (hc : create_tables_if_not_exist api ws = ⟨Except.ok (), evC⟩) :
    ∃ sch, builtSchema api ws = Except.ok sch ∧
      evC = [Event.apiCall (Endpoint.customFields ws), Event.createTable sch] := by
  rw [create_tables_spec] at hc
  cases hb : builtSchema api ws with
  | error e =>
      rw [hb] at hc
      simp only at hc
      exact absurd (congrArg PyM.res hc) (by simp)
  | ok sch =>
      rw [hb] at hc
      simp only at hc
      have hev := congrArg PyM.events hc
      simp only at hev
      exact ⟨sch, rfl, hev.symm⟩

theorem infoLogsOf_append (a b : List Event) :
    infoLogsOf (a ++ b) = infoLogsOf a ++ infoLogsOf b :=
  List.filterMap_append a b _

theorem infoLogsOf_nil_of {evs : List Event}
    (h : ∀ e ∈ evs, ∀ s, e ≠ Event.logInfo s) : infoLogsOf evs = [] := by
  apply List.filterMap_eq_nil_iff.mpr
  intro e he
  cases e with
  | logInfo s => exact absurd rfl (h _ he s)
  | apiCall ep => rfl
  | createTable sch => rfl
  | loadJob rows disp => rfl
  | jobResult => rfl
  | logError s => rfl

theorem filter_load_nil_of {evs : List Event}
    (h : ∀ e ∈ evs, isLoadEvent e = false) : evs.filter isLoadEvent = [] :=
  List.filter_eq_nil_iff.mpr (fun e he => by simp [h e he])

/-! ## Further concrete source-API instances -/

/-- A workspace whose single custom-field definition lacks a declared kind. -/

theorem extractor_injects_context {api : Api} {ws : String} {tasks : List Dict}
    {ev : List Event} {d : Dict}
    (h : fetch_tasks api ws = ⟨Except.ok tasks, ev⟩) (hd : d ∈ tasks) :
    ∃ sid lid taskJ,
      fetchedUnder api ws sid lid taskJ ∧
      flatten_task sid lid taskJ = Except.ok d ∧
      dictGet d "space_id" = some sid ∧ dictGet d "list_id" = some lid := by
  obtain ⟨sid, lid, taskJ, hfu, hft⟩ := fetch_tasks_mem h hd
  obtain ⟨h1, h2⟩ := flatten_task_context hft
  exact ⟨sid, lid, taskJ, hfu, hft, h1, h2⟩

/-- Witness for C3: under the concrete workspace `apiEx`, the single
extracted record carries `space_id = "S1"` and `list_id = "L1"`. -/

theorem extractor_injects_context_witness :
    ∃ sid lid taskJ,
      fetchedUnder apiEx "w1" sid lid taskJ ∧
      flatten_task sid lid taskJ = Except.ok taskT2Flat ∧
      dictGet taskT2Flat "space_id" = some sid ∧ dictGet taskT2Flat "list_id" = some lid :=
  @extractor_injects_context apiEx "w1" [taskT2Flat]
    [Event.apiCall (Endpoint.spaces "w1"), Event.apiCall (Endpoint.lists "S1"),
     Event.apiCall (Endpoint.tasks "L1")] taskT2Flat rfl (by simp)

/-- Claim C2 as amended: for every extracted record and each entry of its
source custom-fields collection, the record holds the key
`custom_field_<id>`; its value is the raw value of the *last* entry of the
collection bearing that id (so with duplicate ids, later entries win; with
distinct ids, each entry's own raw value), with no type conversion. -/

theorem flattening_preserves_raw_values {api : Api} {ws : String} {tasks : List Dict}
    {ev : List Event} {d : Dict}
    (h : fetch_tasks api ws = ⟨Except.ok tasks, ev⟩) (hd : d ∈ tasks) :
    ∃ sid lid td fields,
      fetchedUnder api ws sid lid (JVal.obj td) ∧
      pyIter ((dictGet td "custom_fields").getD (JVal.arr [])) = Except.ok fields ∧
      ∀ f ∈ fields, ∃ k,
        fieldKey f = some k ∧
        dictGet d k = lastAssign fields k ∧
        (lastAssign fields k).isSome = true := by
  obtain ⟨sid, lid, taskJ, hfu, hft⟩ := fetch_tasks_mem h hd
  obtain ⟨td, rfl⟩ := flatten_task_ok_obj hft
  obtain ⟨fields, d1, hit, hff, hd2⟩ := flatten_task_obj_inv hft
  refine ⟨sid, lid, td, fields, hfu, hit, ?_⟩
  intro f hf
  have hok := flattenFields_ok_entries hff f hf
  cases f with
  | obj fd =>
      cases hid : dictGet fd "id" with
      | none => simp [fieldEntryOk, hid] at hok
      | some fid =>
          have hkey : fieldKey (JVal.obj fd) = some ("custom_field_" ++ pyStr fid) := by
            simp [fieldKey, hid]
          obtain ⟨hne1, hne2, hne3⟩ := customKey_ne (pyStr fid)
          have hsome := lastAssign_key_isSome hf hkey
          have hget := flatten_task_get hit hft _ hne1 hne2
          refine ⟨"custom_field_" ++ pyStr fid, hkey, ?_, hsome⟩
          rw [hget]
          cases hla : lastAssign fields ("custom_field_" ++ pyStr fid) with
          | some v => simp [Option.elim]
          | none => rw [hla] at hsome; simp at hsome
  | null => simp [fieldEntryOk] at hok
  | bool b => simp [fieldEntryOk] at hok
  | num n => simp [fieldEntryOk] at hok
  | str s => simp [fieldEntryOk] at hok
  | arr xs => simp [fieldEntryOk] at hok

/-- Witness for the amended C2 at the duplicate-id workspace `apiC2`. -/

theorem flattening_preserves_raw_values_witness :
    ∃ sid lid td fields,
      fetchedUnder apiC2 "w1" sid lid (JVal.obj td) ∧
      pyIter ((dictGet td "custom_fields").getD (JVal.arr [])) = Except.ok fields ∧
      ∀ f ∈ fields, ∃ k,
        fieldKey f = some k ∧
        dictGet taskDupFlat k = lastAssign fields k ∧
        (lastAssign fields k).isSome = true :=
  @flattening_preserves_raw_values apiC2 "w1" [taskDupFlat]
    [Event.apiCall (Endpoint.spaces "w1"), Event.apiCall (Endpoint.lists "S1"),
     Event.apiCall (Endpoint.tasks "L1")] taskDupFlat rfl (by simp)

/-- Counterexample to C2 as stated: under `apiC2` the source supplies for one
task the custom-fields entries `(id X, value "a")` and `(id X, value "b")`;
the flattened record maps `custom_field_X` to `"b"`, not to the first
entry's raw value `"a"` — so "for each entry ... the value is exactly the
raw value supplied" fails for the first entry. -/

theorem flattening_first_duplicate_lost :
    fetch_tasks apiC2 "w1" =
      ⟨Except.ok [taskDupFlat],
       [Event.apiCall (Endpoint.spaces "w1"), Event.apiCall (Endpoint.lists "S1"),
        Event.apiCall (Endpoint.tasks "L1")]⟩ ∧
    dictGet taskDupFlat "custom_field_X" = some (JVal.str "b") ∧
    ¬dictGet taskDupFlat "custom_field_X" = some (JVal.str "a") :=
  ⟨rfl, rfl, fun hcontra =>
    absurd (JVal.str.inj (Option.some.inj ((rfl :
      dictGet taskDupFlat "custom_field_X" = some (JVal.str "b")) ▸ hcontra))) (by decide)⟩

/-- Claim C10: flattening writes into the source task record itself, so any
attribute the source already supplied under `space_id`, `list_id`, or an
assigned `custom_field_<id>` is overwritten: replacing the source's value at
such a key changes nothing about the flattened record's value there, and the
run still succeeds. -/

theorem source_attributes_overwritten {sid lid : JVal} {d0 : Dict} {fields : List JVal}
    {d : Dict} {key : String}
    (hit : pyIter ((dictGet d0 "custom_fields").getD (JVal.arr [])) = Except.ok fields)
    (h : flatten_task sid lid (JVal.obj d0) = Except.ok d)
    (hkey : key = "space_id" ∨ key = "list_id" ∨ ∃ f ∈ fields, fieldKey f = some key) :
    ∀ v0, ∃ d2,
      flatten_task sid lid (JVal.obj (dictSet d0 key v0)) = Except.ok d2 ∧
      dictGet d2 key = dictGet d key := by
  intro v0
  have hkcf : key ≠ "custom_fields" := by
    rcases hkey with hkey | hkey | ⟨f, hf, hk⟩
    · subst hkey; decide
    · subst hkey; decide
    · cases f with
      | obj fd =>
          cases hid : dictGet fd "id" with
          | none => simp [fieldKey, hid] at hk
          | some fid =>
              simp [fieldKey, hid] at hk
              subst hk
              exact (customKey_ne (pyStr fid)).2.2
      | null => simp [fieldKey] at hk
      | bool b => simp [fieldKey] at hk
      | num n => simp [fieldKey] at hk
      | str s => simp [fieldKey] at hk
      | arr xs => simp [fieldKey] at hk
  obtain ⟨fields2, d1, hit2, hff, hdd⟩ := flatten_task_obj_inv h
  rw [hit] at hit2
  cases hit2
  have hcf_same : dictGet (dictSet d0 key v0) "custom_fields" = dictGet d0 "custom_fields" :=
    dictGet_set_ne d0 key "custom_fields" v0 (fun hh => hkcf (Eq.symm hh))
  have hit3 : pyIter ((dictGet (dictSet d0 key v0) "custom_fields").getD (JVal.arr [])) =
      Except.ok fields := by rw [hcf_same]; exact hit
  obtain ⟨d1b, hffb⟩ := flattenFields_ok_of_entries (flattenFields_ok_entries hff) (dictSet d0 key v0)
  refine ⟨dictSet (dictSet d1b "space_id" sid) "list_id" lid,
    flatten_task_obj_ok hit3 hffb, ?_⟩
  have hres2 : flatten_task sid lid (JVal.obj (dictSet d0 key v0)) =
      Except.ok (dictSet (dictSet d1b "space_id" sid) "list_id" lid) :=
    flatten_task_obj_ok hit3 hffb
  rcases hkey with hkey | hkey | ⟨f, hf, hk⟩
  · subst hkey
    have c1 := (flatten_task_context hres2).1
    have c2 := (flatten_task_context h).1
    rw [c1, c2]
  · subst hkey
    have c1 := (flatten_task_context hres2).2
    have c2 := (flatten_task_context h).2
    rw [c1, c2]
  · have hne : key ≠ "space_id" ∧ key ≠ "list_id" := by
      cases f with
      | obj fd =>
          cases hid : dictGet fd "id" with
          | none => simp [fieldKey, hid] at hk
          | some fid =>
              simp [fieldKey, hid] at hk
              subst hk
              exact ⟨(customKey_ne (pyStr fid)).1, (customKey_ne (pyStr fid)).2.1⟩
      | null => simp [fieldKey] at hk
      | bool b => simp [fieldKey] at hk
      | num n => simp [fieldKey] at hk
      | str s => simp [fieldKey] at hk
      | arr xs => simp [fieldKey] at hk
    have hsome := lastAssign_key_isSome hf hk
    have g1 := flatten_task_get hit3 hres2 key hne.1 hne.2
    have g2 := flatten_task_get hit h key hne.1 hne.2
    rw [g1, g2]
    cases hla : lastAssign fields key with
    | some v => simp [Option.elim]
    | none => rw [hla] at hsome; simp at hsome

/-- Witness for C10 at `apiEx`'s task dict: the source task is given a
conflicting prior `custom_field_F1` binding and the flattened value still
comes from the custom-fields collection. -/

theorem source_attributes_overwritten_witness :
    ∃ d2,
      flatten_task (JVal.str "S1") (JVal.str "L1")
          (JVal.obj (dictSet
            [("id", JVal.str "T2"),
             ("custom_fields", JVal.arr [JVal.obj [("id", JVal.str "F1"), ("value", JVal.str "4.5")]])]
            "custom_field_F1" (JVal.str "stale"))) = Except.ok d2 ∧
      dictGet d2 "custom_field_F1" = dictGet taskT2Flat "custom_field_F1" :=
  @source_attributes_overwritten (JVal.str "S1") (JVal.str "L1")
    [("id", JVal.str "T2"),
     ("custom_fields", JVal.arr [JVal.obj [("id", JVal.str "F1"), ("value", JVal.str "4.5")]])]
    [JVal.obj [("id", JVal.str "F1"), ("value", JVal.str "4.5")]]
    taskT2Flat "custom_field_F1" rfl rfl
    (Or.inr (Or.inr ⟨JVal.obj [("id", JVal.str "F1"), ("value", JVal.str "4.5")], by simp, rfl⟩))
    (JVal.str "stale")

/-- A workspace every one of whose endpoints returns an empty JSON object,
lacking all expected collection keys. -/

theorem schema_type_mapping {api : Api} {ws : String} {cf : JVal} {fields : List JVal}
    (h1 : pyGetD (api (Endpoint.customFields ws)) "custom_fields" (JVal.arr []) = Except.ok cf)
    (h2 : pyIter cf = Except.ok fields)
    (h3 : ∀ f ∈ fields, fieldOk f = true) :
    create_tables_if_not_exist api ws =
      ⟨Except.ok (),
       [Event.apiCall (Endpoint.customFields ws),
        Event.createTable (tasks_schema_base ++ fields.map colOf)]⟩ ∧
    ∀ f ∈ fields,
      (fieldTypeOf f = JVal.str "number" → (colOf f).colType = "FLOAT") ∧
      (fieldTypeOf f = JVal.str "date" → (colOf f).colType = "TIMESTAMP") ∧
      (fieldTypeOf f ≠ JVal.str "number" → fieldTypeOf f ≠ JVal.str "date" →
        (colOf f).colType = "STRING") := by
  have hbs : builtSchema api ws = Except.ok (tasks_schema_base ++ fields.map colOf) := by
    simp [builtSchema, h1, h2, except_bind_ok, addCustomColumns_ok h3]
  constructor
  · rw [create_tables_spec, hbs]
  · intro f hf
    refine ⟨?_, ?_, ?_⟩
    · intro hty; simp [colOf, columnType, pyEqStr, hty]
    · intro hty; simp [colOf, columnType, pyEqStr, hty]
    · intro hn hd1
      cases hty : fieldTypeOf f with
      | str s =>
          rw [hty] at hn hd1
          have hs1 : s ≠ "number" := fun hh => hn (by rw [hh])
          have hs2 : s ≠ "date" := fun hh => hd1 (by rw [hh])
          simp [colOf, columnType, pyEqStr, hty, hs1, hs2]
      | null => simp [colOf, columnType, pyEqStr, hty]
      | bool b => simp [colOf, columnType, pyEqStr, hty]
      | num n => simp [colOf, columnType, pyEqStr, hty]
      | arr xs => simp [colOf, columnType, pyEqStr, hty]
      | obj fd => simp [colOf, columnType, pyEqStr, hty]

/-- Witness for the amended C1: under `apiEx` the single definition
`F1:number` yields exactly the base schema plus `custom_field_F1 : FLOAT`. -/

theorem schema_type_mapping_witness :
    create_tables_if_not_exist apiEx "w1" =
      ⟨Except.ok (),
       [Event.apiCall (Endpoint.customFields "w1"),
        Event.createTable (tasks_schema_base ++ [fieldF1].map colOf)]⟩ ∧
    ∀ f ∈ [fieldF1],
      (fieldTypeOf f = JVal.str "number" → (colOf f).colType = "FLOAT") ∧
      (fieldTypeOf f = JVal.str "date" → (colOf f).colType = "TIMESTAMP") ∧
      (fieldTypeOf f ≠ JVal.str "number" → fieldTypeOf f ≠ JVal.str "date" →
        (colOf f).colType = "STRING") :=
  @schema_type_mapping apiEx "w1" (JVal.arr [fieldF1]) [fieldF1] rfl rfl
    (fun f hf => by
      rcases List.mem_singleton.mp hf with rfl
      rfl)

/-- Counterexample to C1 as stated: a definition with an absent kind does not
yield a STRING column — the schema build raises `KeyError('type')` before
creating anything, so no column at all is derived for it. -/

theorem schema_absent_kind_raises :
    create_tables_if_not_exist apiC1 "w1" =
      ⟨Except.error (PyErr.keyError "type"), [Event.apiCall (Endpoint.customFields "w1")]⟩ ∧
    ∀ sch, Event.createTable sch ∉ (create_tables_if_not_exist apiC1 "w1").events := by
  constructor
  · rfl
  · intro sch hmem
    replace hmem : Event.createTable sch ∈ [Event.apiCall (Endpoint.customFields "w1")] := hmem
    simp at hmem

/-- Claim C4: if the extracted task set is empty, the sync issues no load
operation (an explicit skip, not an error): the run succeeds, its trace is
exactly start log, schema-builder events, extractor events and completion
log, and contains no load job. -/

theorem empty_extraction_skips_load {api : Api} {ws : String} {evC evF : List Event}
    (hc : create_tables_if_not_exist api ws = ⟨Except.ok (), evC⟩)
    (hf : fetch_tasks api ws = ⟨Except.ok [], evF⟩) :
    sync_data api ws =
      ⟨Except.ok (),
       Event.logInfo "Starting ClickUp to BigQuery sync" ::
         (evC ++ evF ++ [Event.logInfo "Sync completed successfully"])⟩ ∧
    (sync_data api ws).events.filter isLoadEvent = [] := by
  have hevC : ∀ e ∈ evC, isLoadEvent e = false := fun e he =>
    (isSchemaEvent_shape (create_tables_events api ws e (by rw [hc]; exact he))).2.2.2.2
  have hevF : ∀ e ∈ evF, isLoadEvent e = false := fun e he =>
    (isExtractionEvent_shape (fetch_tasks_events api ws e (by rw [hf]; exact he))).2.2.2.2
  constructor
  · rw [sync_data_ok hc hf]
    simp
  · rw [sync_data_ok hc hf]
    simp [List.filter_append, filter_load_nil_of hevC, filter_load_nil_of hevF, isLoadEvent]

/-- Witness for C4: the zero-space workspace `apiEmpty`. -/

theorem empty_extraction_skips_load_witness :
    sync_data apiEmpty "w1" =
      ⟨Except.ok (),
       Event.logInfo "Starting ClickUp to BigQuery sync" ::
         ([Event.apiCall (Endpoint.customFields "w1"), Event.createTable tasks_schema_base] ++
          [Event.apiCall (Endpoint.spaces "w1")] ++
          [Event.logInfo "Sync completed successfully"])⟩ ∧
    (sync_data apiEmpty "w1").events.filter isLoadEvent = [] :=
  @empty_extraction_skips_load apiEmpty "w1"
    [Event.apiCall (Endpoint.customFields "w1"), Event.createTable tasks_schema_base]
    [Event.apiCall (Endpoint.spaces "w1")] rfl rfl

/-- A zero-space response makes the extractor return the empty list with the
single spaces API call as its trace. -/

theorem fetch_tasks_zero_spaces {api : Api} {ws : String}
    (hsp : pyGetD (api (Endpoint.spaces ws)) "spaces" (JVal.arr []) = Except.ok (JVal.arr [])) :
    fetch_tasks api ws = ⟨Except.ok [], [Event.apiCall (Endpoint.spaces ws)]⟩ := by
  have hdo : (do
      let sv ← pyGetD (api (Endpoint.spaces ws)) "spaces" (JVal.arr [])
      pyIter sv : Except PyErr (List JVal)) = Except.ok [] := by
    rw [hsp, except_bind_ok]
    rfl
  rw [fetch_tasks_spec, hdo]
  simp [processSpaces_nil]

/-- Claim C5: a zero-space sync extracts nothing, issues no load, and its
info-log output — exactly the start and completion lines, with no
`Loaded N tasks` line — is distinct from that of any task-loading sync,
whose info-log output carries the extra `Loaded N tasks to BigQuery` line. -/

theorem zero_space_log_distinct :
    (∀ (api : Api) (ws : String) (evC : List Event),
       create_tables_if_not_exist api ws = ⟨Except.ok (), evC⟩ →
       pyGetD (api (Endpoint.spaces ws)) "spaces" (JVal.arr []) = Except.ok (JVal.arr []) →
       fetch_tasks api ws = ⟨Except.ok [], [Event.apiCall (Endpoint.spaces ws)]⟩ ∧
       (sync_data api ws).events.filter isLoadEvent = [] ∧
       infoLogsOf (sync_data api ws).events =
         ["Starting ClickUp to BigQuery sync", "Sync completed successfully"]) ∧
    (∀ (api : Api) (ws : String) (evC evF : List Event) (tasks : List Dict),
       create_tables_if_not_exist api ws = ⟨Except.ok (), evC⟩ →
       fetch_tasks api ws = ⟨Except.ok tasks, evF⟩ → tasks ≠ [] →
       infoLogsOf (sync_data api ws).events =
         ["Starting ClickUp to BigQuery sync",
          "Loaded " ++ toString tasks.length ++ " tasks to BigQuery",
          "Sync completed successfully"]) := by
  constructor
  · intro api ws evC hc hsp
    have hf := fetch_tasks_zero_spaces hsp
    have hevC : ∀ e ∈ evC, isLoadEvent e = false := fun e he =>
      (isSchemaEvent_shape (create_tables_events api ws e (by rw [hc]; exact he))).2.2.2.2
    have hlogC : infoLogsOf evC = [] := infoLogsOf_nil_of (fun e he =>
      (isSchemaEvent_shape (create_tables_events api ws e (by rw [hc]; exact he))).2.1)
    refine ⟨hf, ?_, ?_⟩
    · rw [sync_data_ok hc hf]
      simp [List.filter_append, filter_load_nil_of hevC, isLoadEvent]
    · rw [sync_data_ok hc hf]
      simp only [infoLogsOf] at hlogC
      simp [infoLogsOf, List.filterMap_append, hlogC]
  · intro api ws evC evF tasks hc hf hne
    have hlogC : infoLogsOf evC = [] := infoLogsOf_nil_of (fun e he =>
      (isSchemaEvent_shape (create_tables_events api ws e (by rw [hc]; exact he))).2.1)
    have hlogF : infoLogsOf evF = [] := infoLogsOf_nil_of (fun e he =>
      (isExtractionEvent_shape (fetch_tasks_events api ws e (by rw [hf]; exact he))).2.1)
    have hemp : tasks.isEmpty = false := by
      cases tasks with
      | nil => exact absurd rfl hne
      | cons t rest => rfl
    rw [sync_data_ok hc hf, hemp]
    simp only [infoLogsOf] at hlogC hlogF ⊢
    simp [List.filterMap_append, hlogC, hlogF]

/-- Witness for C5: `apiEmpty` for the zero-space half, `apiEx` for the
loading half. -/

theorem zero_space_log_distinct_witness :
    (fetch_tasks apiEmpty "w1" = ⟨Except.ok [], [Event.apiCall (Endpoint.spaces "w1")]⟩ ∧
     (sync_data apiEmpty "w1").events.filter isLoadEvent = [] ∧
     infoLogsOf (sync_data apiEmpty "w1").events =
       ["Starting ClickUp to BigQuery sync", "Sync completed successfully"]) ∧
    infoLogsOf (sync_data apiEx "w1").events =
      ["Starting ClickUp to BigQuery sync",
       "Loaded " ++ toString [taskT2Flat].length ++ " tasks to BigQuery",
       "Sync completed successfully"] :=
  ⟨zero_space_log_distinct.1 apiEmpty "w1"
     [Event.apiCall (Endpoint.customFields "w1"), Event.createTable tasks_schema_base] rfl rfl,
   zero_space_log_distinct.2 apiEx "w1"
     [Event.apiCall (Endpoint.customFields "w1"),
      Event.createTable (tasks_schema_base ++ [colOf fieldF1])]
     [Event.apiCall (Endpoint.spaces "w1"), Event.apiCall (Endpoint.lists "S1"),
      Event.apiCall (Endpoint.tasks "L1")]
     [taskT2Flat] rfl rfl (by simp)⟩

/-- Claim C6: no layer below `sync_data` catches or retries an exception:
whatever exception its body raises, `sync_data` appends exactly one
`Error during sync: <message>` log line and re-raises the *same* exception;
and when extraction fails (e.g. a malformed lists-by-space body), the whole
run fails with that exception and its trace contains no load job, so no
tasks at all are loaded. -/

theorem errors_logged_and_reraised :
    (∀ (api : Api) (ws : String) (e : PyErr) (ev : List Event),
       sync_body api ws = ⟨Except.error e, ev⟩ →
       sync_data api ws =
         ⟨Except.error e, ev ++ [Event.logError ("Error during sync: " ++ PyErr.msg e)]⟩) ∧
    (∀ (api : Api) (ws : String) (evC : List Event) (e : PyErr) (evF : List Event),
       create_tables_if_not_exist api ws = ⟨Except.ok (), evC⟩ →
       fetch_tasks api ws = ⟨Except.error e, evF⟩ →
       sync_data api ws =
         ⟨Except.error e,
          Event.logInfo "Starting ClickUp to BigQuery sync" :: (evC ++ evF) ++
            [Event.logError ("Error during sync: " ++ PyErr.msg e)]⟩ ∧
       (sync_data api ws).events.filter isLoadEvent = []) := by
  constructor
  · intro api ws e ev hb
    exact sync_data_of_body_err hb
  · intro api ws evC e evF hc hf
    have hevC : ∀ ev1 ∈ evC, isLoadEvent ev1 = false := fun ev1 he =>
      (isSchemaEvent_shape (create_tables_events api ws ev1 (by rw [hc]; exact he))).2.2.2.2
    have hevF : ∀ ev1 ∈ evF, isLoadEvent ev1 = false := fun ev1 he =>
      (isExtractionEvent_shape (fetch_tasks_events api ws ev1 (by rw [hf]; exact he))).2.2.2.2
    refine ⟨sync_data_fetch_err hc hf, ?_⟩
    rw [sync_data_fetch_err hc hf]
    simp [List.filter_append, filter_load_nil_of hevC, filter_load_nil_of hevF, isLoadEvent]

/-- Witness for C6: `apiBadLists` serves a JSON list (not an object) for the
lists-by-space call; the AttributeError from `.get('lists', [])`'s receiver
aborts the whole run, is logged once at top level, re-raised, and nothing is
loaded. -/

theorem errors_logged_and_reraised_witness :
    sync_data apiBadLists "w1" =
      ⟨Except.error PyErr.attributeError,
       Event.logInfo "Starting ClickUp to BigQuery sync" ::
         ([Event.apiCall (Endpoint.customFields "w1"), Event.createTable tasks_schema_base] ++
          [Event.apiCall (Endpoint.spaces "w1"), Event.apiCall (Endpoint.lists "S1")]) ++
         [Event.logError ("Error during sync: " ++ PyErr.msg PyErr.attributeError)]⟩ ∧
    (sync_data apiBadLists "w1").events.filter isLoadEvent = [] :=
  errors_logged_and_reraised.2 apiBadLists "w1"
    [Event.apiCall (Endpoint.customFields "w1"), Event.createTable tasks_schema_base]
    PyErr.attributeError
    [Event.apiCall (Endpoint.spaces "w1"), Event.apiCall (Endpoint.lists "S1")] rfl rfl

/-- Claim C7: when the extracted task set is non-empty, exactly one load job
is issued, carrying the whole record set with write disposition
`WRITE_TRUNCATE` (whole-table overwrite, not append, not upsert), and the
caller waits on the job (`job.result()`) immediately after issuing it,
before logging and returning. -/

theorem nonempty_load_truncates_and_waits {api : Api} {ws : String} {evC evF : List Event}
    {tasks : List Dict}
    (hc : create_tables_if_not_exist api ws = ⟨Except.ok (), evC⟩)
    (hf : fetch_tasks api ws = ⟨Except.ok tasks, evF⟩) (hne : tasks ≠ []) :
    sync_data api ws =
      ⟨Except.ok (),
       Event.logInfo "Starting ClickUp to BigQuery sync" ::
         (evC ++ evF ++
           [Event.loadJob tasks WriteDisposition.WRITE_TRUNCATE, Event.jobResult,
            Event.logInfo ("Loaded " ++ toString tasks.length ++ " tasks to BigQuery")] ++
           [Event.logInfo "Sync completed successfully"])⟩ ∧
    (sync_data api ws).events.filter isLoadEvent =
      [Event.loadJob tasks WriteDisposition.WRITE_TRUNCATE] ∧
    ∃ pre post, (sync_data api ws).events =
      pre ++ Event.loadJob tasks WriteDisposition.WRITE_TRUNCATE :: Event.jobResult :: post := by
  have hemp : tasks.isEmpty = false := by
    cases tasks with
    | nil => exact absurd rfl hne
    | cons t rest => rfl
  have hshape := sync_data_ok hc hf
  rw [hemp] at hshape
  have hevC : ∀ e ∈ evC, isLoadEvent e = false := fun e he =>
    (isSchemaEvent_shape (create_tables_events api ws e (by rw [hc]; exact he))).2.2.2.2
  have hevF : ∀ e ∈ evF, isLoadEvent e = false := fun e he =>
    (isExtractionEvent_shape (fetch_tasks_events api ws e (by rw [hf]; exact he))).2.2.2.2
  refine ⟨?_, ?_, ?_⟩
  · rw [hshape]
    simp
  · rw [hshape]
    simp [List.filter_append, filter_load_nil_of hevC, filter_load_nil_of hevF, isLoadEvent]
  · refine ⟨Event.logInfo "Starting ClickUp to BigQuery sync" :: (evC ++ evF),
      [Event.logInfo ("Loaded " ++ toString tasks.length ++ " tasks to BigQuery"),
       Event.logInfo "Sync completed successfully"], ?_⟩
    rw [hshape]
    simp

/-- Witness for C7 at the one-task workspace `apiEx`. -/

theorem nonempty_load_truncates_and_waits_witness :
    sync_data apiEx "w1" =
      ⟨Except.ok (),
       Event.logInfo "Starting ClickUp to BigQuery sync" ::
         ([Event.apiCall (Endpoint.customFields "w1"),
           Event.createTable (tasks_schema_base ++ [colOf fieldF1])] ++
          [Event.apiCall (Endpoint.spaces "w1"), Event.apiCall (Endpoint.lists "S1"),
           Event.apiCall (Endpoint.tasks "L1")] ++
          [Event.loadJob [taskT2Flat] WriteDisposition.WRITE_TRUNCATE, Event.jobResult,
           Event.logInfo ("Loaded " ++ toString [taskT2Flat].length ++ " tasks to BigQuery")] ++
          [Event.logInfo "Sync completed successfully"])⟩ ∧
    (sync_data apiEx "w1").events.filter isLoadEvent =
      [Event.loadJob [taskT2Flat] WriteDisposition.WRITE_TRUNCATE] ∧
    ∃ pre post, (sync_data apiEx "w1").events =
      pre ++ Event.loadJob [taskT2Flat] WriteDisposition.WRITE_TRUNCATE ::
        Event.jobResult :: post :=
  @nonempty_load_truncates_and_waits apiEx "w1"
    [Event.apiCall (Endpoint.customFields "w1"),
     Event.createTable (tasks_schema_base ++ [colOf fieldF1])]
    [Event.apiCall (Endpoint.spaces "w1"), Event.apiCall (Endpoint.lists "S1"),
     Event.apiCall (Endpoint.tasks "L1")]
    [taskT2Flat] rfl rfl (by simp)

/-- Claim C8 as amended: a sync run is strictly sequential — start log, then
the schema builder exactly once (one custom-fields fetch followed by one
create-table call, and nothing else), then the extractor (whose events are
all extraction API calls), then the loader segment consuming the extractor's
output, then the completion log.  The custom task-type metadata is *not*
fetched: `fetch_custom_task_types` is dead code, and no event of any run is
a custom-task-types call. -/

theorem pipeline_sequential_no_tasktype_fetch {api : Api} {ws : String}
    {evC evF : List Event} {tasks : List Dict}
    (hc : create_tables_if_not_exist api ws = ⟨Except.ok (), evC⟩)
    (hf : fetch_tasks api ws = ⟨Except.ok tasks, evF⟩) :
    (∃ sch, builtSchema api ws = Except.ok sch ∧
       evC = [Event.apiCall (Endpoint.customFields ws), Event.createTable sch]) ∧
    (∀ e ∈ evF, isExtractionEvent e = true) ∧
    sync_data api ws =
      ⟨Except.ok (),
       Event.logInfo "Starting ClickUp to BigQuery sync" ::
         (evC ++ evF ++
           (if tasks.isEmpty then [] else
             [Event.loadJob tasks WriteDisposition.WRITE_TRUNCATE, Event.jobResult,
              Event.logInfo ("Loaded " ++ toString tasks.length ++ " tasks to BigQuery")]) ++
           [Event.logInfo "Sync completed successfully"])⟩ ∧
    ∀ e ∈ (sync_data api ws).events, isTaskTypeCall e = false := by
  have hshape := sync_data_ok hc hf
  refine ⟨create_tables_ok_inv hc, fun e he => fetch_tasks_events api ws e (by rw [hf]; exact he),
    hshape, ?_⟩
  intro e he
  rw [hshape] at he
  replace he : e ∈ Event.logInfo "Starting ClickUp to BigQuery sync" ::
      (evC ++ evF ++
        (if tasks.isEmpty then [] else
          [Event.loadJob tasks WriteDisposition.WRITE_TRUNCATE, Event.jobResult,
           Event.logInfo ("Loaded " ++ toString tasks.length ++ " tasks to BigQuery")]) ++
        [Event.logInfo "Sync completed successfully"]) := he
  rcases List.mem_cons.mp he with he | he
  · subst he; rfl
  rcases List.mem_append.mp he with he | he
  rcases List.mem_append.mp he with he | he
  rcases List.mem_append.mp he with he | he
  · exact (isSchemaEvent_shape (create_tables_events api ws e (by rw [hc]; exact he))).2.2.2.1
  · exact (isExtractionEvent_shape (fetch_tasks_events api ws e (by rw [hf]; exact he))).2.2.2.1
  · by_cases htl : tasks.isEmpty
    · rw [htl] at he
      simp at he
    · rw [Bool.eq_false_iff.mpr htl] at he
      simp only [Bool.false_eq_true, if_false] at he
      rcases List.mem_cons.mp he with he | he
      · subst he; rfl
      rcases List.mem_cons.mp he with he | he
      · subst he; rfl
      rcases List.mem_cons.mp he with he | he
      · subst he; rfl
      · simp at he
  · rcases List.mem_singleton.mp he with rfl
    rfl

/-- Witness for the amended C8 at `apiEx`. -/

theorem pipeline_sequential_no_tasktype_fetch_witness :
    (∃ sch, builtSchema apiEx "w1" = Except.ok sch ∧
       [Event.apiCall (Endpoint.customFields "w1"),
        Event.createTable (tasks_schema_base ++ [colOf fieldF1])] =
         [Event.apiCall (Endpoint.customFields "w1"), Event.createTable sch]) ∧
    (∀ e ∈ [Event.apiCall (Endpoint.spaces "w1"), Event.apiCall (Endpoint.lists "S1"),
            Event.apiCall (Endpoint.tasks "L1")], isExtractionEvent e = true) ∧
    sync_data apiEx "w1" =
      ⟨Except.ok (),
       Event.logInfo "Starting ClickUp to BigQuery sync" ::
         ([Event.apiCall (Endpoint.customFields "w1"),
           Event.createTable (tasks_schema_base ++ [colOf fieldF1])] ++
          [Event.apiCall (Endpoint.spaces "w1"), Event.apiCall (Endpoint.lists "S1"),
           Event.apiCall (Endpoint.tasks "L1")] ++
          (if ([taskT2Flat] : List Dict).isEmpty then [] else
            [Event.loadJob [taskT2Flat] WriteDisposition.WRITE_TRUNCATE, Event.jobResult,
             Event.logInfo ("Loaded " ++ toString ([taskT2Flat] : List Dict).length ++
               " tasks to BigQuery")]) ++
          [Event.logInfo "Sync completed successfully"])⟩ ∧
    ∀ e ∈ (sync_data apiEx "w1").events, isTaskTypeCall e = false :=
  @pipeline_sequential_no_tasktype_fetch apiEx "w1"
    [Event.apiCall (Endpoint.customFields "w1"),
     Event.createTable (tasks_schema_base ++ [colOf fieldF1])]
    [Event.apiCall (Endpoint.spaces "w1"), Event.apiCall (Endpoint.lists "S1"),
     Event.apiCall (Endpoint.tasks "L1")]
    [taskT2Flat] rfl rfl

/-- Counterexample to C8 as stated: a complete, successful sync run — one
that creates the table and loads a task — performs no custom-task-types
fetch at all: the Schema Builder fetches only the custom-field metadata
(`fetch_custom_task_types` is never called). -/

theorem sync_never_fetches_task_types :
    (sync_data apiEx "w1").res = Except.ok () ∧
    (sync_data apiEx "w1").events.filter isTaskTypeCall = [] ∧
    (sync_data apiEx "w1").events.filter isLoadEvent =
      [Event.loadJob [taskT2Flat] WriteDisposition.WRITE_TRUNCATE] :=
  ⟨rfl, rfl, rfl⟩

/-- Claim C9: an object response lacking the expected collection key makes
the corresponding stage yield an empty collection and proceed without error:
no `custom_fields` key means an empty field list (base schema only), no
`spaces` key means the extractor returns nothing — exactly as with an
explicit empty spaces list — and a missing `lists` (resp. `tasks`) key makes
that space (resp. list) contribute nothing. -/

theorem missing_keys_default_empty :
    (∀ (api : Api) (ws : String) (d : Dict),
       api (Endpoint.customFields ws) = JVal.obj d → dictGet d "custom_fields" = none →
       fetch_custom_fields api ws =
         ⟨Except.ok (JVal.arr []), [Event.apiCall (Endpoint.customFields ws)]⟩ ∧
       create_tables_if_not_exist api ws =
         ⟨Except.ok (),
          [Event.apiCall (Endpoint.customFields ws), Event.createTable tasks_schema_base]⟩) ∧
    (∀ (api : Api) (ws : String) (d : Dict),
       api (Endpoint.spaces ws) = JVal.obj d → dictGet d "spaces" = none →
       fetch_tasks api ws = ⟨Except.ok [], [Event.apiCall (Endpoint.spaces ws)]⟩) ∧
    (∀ (api api2 : Api) (ws : String) (d d2 : Dict),
       api (Endpoint.spaces ws) = JVal.obj d → dictGet d "spaces" = none →
       api2 (Endpoint.spaces ws) = JVal.obj d2 → dictGet d2 "spaces" = some (JVal.arr []) →
       fetch_tasks api ws = fetch_tasks api2 ws) ∧
    (∀ (api : Api) (space sid : JVal) (d : Dict),
       pySubscr space "id" = Except.ok sid →
       api (Endpoint.lists (pyStr sid)) = JVal.obj d → dictGet d "lists" = none →
       processSpace api space = ⟨Except.ok [], [Event.apiCall (Endpoint.lists (pyStr sid))]⟩) ∧
    (∀ (api : Api) (sid l lid : JVal) (d : Dict),
       pySubscr l "id" = Except.ok lid →
       api (Endpoint.tasks (pyStr lid)) = JVal.obj d → dictGet d "tasks" = none →
       processList api sid l = ⟨Except.ok [], [Event.apiCall (Endpoint.tasks (pyStr lid))]⟩) := by
  have hget : ∀ (v : JVal) (d : Dict) (k : String), v = JVal.obj d → dictGet d k = none →
      pyGetD v k (JVal.arr []) = Except.ok (JVal.arr []) := by
    intro v d k hv hk
    subst hv
    simp [pyGetD, hk]
  refine ⟨?_, ?_, ?_, ?_, ?_⟩
  · intro api ws d hresp hk
    have h1 := hget _ _ _ hresp hk
    constructor
    · rw [fetch_custom_fields_spec, h1]
    · have hbs : builtSchema api ws = Except.ok tasks_schema_base := by
        simp [builtSchema, h1, except_bind_ok, pyIter, addCustomColumns]
      rw [create_tables_spec, hbs]
  · intro api ws d hresp hk
    exact fetch_tasks_zero_spaces (hget _ _ _ hresp hk)
  · intro api api2 ws d d2 hresp hk hresp2 hk2
    rw [fetch_tasks_zero_spaces (hget _ _ _ hresp hk)]
    rw [fetch_tasks_zero_spaces (by rw [hresp2]; simp [pyGetD, hk2])]
  · intro api space sid d hsid hresp hk
    rw [processSpace_spec, hsid]
    simp only
    have h1 := hget _ _ _ hresp hk
    rw [h1, except_bind_ok]
    simp [pyIter, processLists_nil]
  · intro api sid l lid d hlid hresp hk
    rw [processList_spec, hlid]
    simp only
    have h1 := hget _ _ _ hresp hk
    rw [h1, except_bind_ok]
    simp [pyIter, flattenAll, except_bind_ok]

/-- Witness for C9: `apiNoKeys` serves `{}` everywhere; each stage defaults
to the empty collection, and its end-to-end behaviour matches `apiEmpty`. -/

theorem missing_keys_default_empty_witness :
    (fetch_custom_fields apiNoKeys "w1" =
       ⟨Except.ok (JVal.arr []), [Event.apiCall (Endpoint.customFields "w1")]⟩ ∧
     create_tables_if_not_exist apiNoKeys "w1" =
       ⟨Except.ok (),
        [Event.apiCall (Endpoint.customFields "w1"), Event.createTable tasks_schema_base]⟩) ∧
    fetch_tasks apiNoKeys "w1" = ⟨Except.ok [], [Event.apiCall (Endpoint.spaces "w1")]⟩ ∧
    fetch_tasks apiNoKeys "w1" = fetch_tasks apiEmpty "w1" ∧
    processSpace apiNoKeys (JVal.obj [("id", JVal.str "S1")]) =
      ⟨Except.ok [], [Event.apiCall (Endpoint.lists "S1")]⟩ ∧
    processList apiNoKeys (JVal.str "S1") (JVal.obj [("id", JVal.str "L1")]) =
      ⟨Except.ok [], [Event.apiCall (Endpoint.tasks "L1")]⟩ :=
  ⟨missing_keys_default_empty.1 apiNoKeys "w1" [] rfl rfl,
   missing_keys_default_empty.2.1 apiNoKeys "w1" [] rfl rfl,
   missing_keys_default_empty.2.2.1 apiNoKeys apiEmpty "w1" []
     [("spaces", JVal.arr [])] rfl rfl rfl rfl,
   missing_keys_default_empty.2.2.2.1 apiNoKeys (JVal.obj [("id", JVal.str "S1")])
     (JVal.str "S1") [] rfl rfl rfl,
   missing_keys_default_empty.2.2.2.2 apiNoKeys (JVal.str "S1")
     (JVal.obj [("id", JVal.str "L1")]) (JVal.str "L1") [] rfl rfl rfl⟩

end ClickUpSync
